import Mathlib

/-!
Verification development for the FanSense location-resolution core
(`src/data_processing/location_parser.py`).

The Python module is shallowly embedded below:

* the text-mining layer (`LOCATION_PATTERNS`, `MAJOR_LOCATIONS`,
  `IGNORE_LOCATIONS`, `find_locations_in_text`) is translated to
  executable functions on `List Char` / `String`;
* the stateful gateway (`LocationParser.geocode_location`,
  `add_known_location`, `parse_tweet_location`, `parse_tweets_location`,
  `_respect_rate_limit`) is translated to explicit state passing over a
  `LocationParser` record (per-instance state: cache, request counter,
  last-request timestamp) and a `World` record (wall clock, external
  geocoding service, ghost logs);
* Python floats are modelled as rationals, Python exceptions as `Except`,
  the external geocoding service as an oracle function consulted once per
  outbound query, and `time.sleep` as advancing the wall clock.
-/

/-! ## Character-level helpers for the regex patterns

The Python module matches text against patterns of the shape
`<preposition> ([A-Z][a-z]+ ?[A-Z]?[a-z]*)` via `re.findall`, scans for
capitalized words with `\b[A-Z][a-z]+\b`, and searches case-insensitively
for gazetteer phrases.  Those specific regexes are implemented directly;
`[A-Z]` / `[a-z]` are the ASCII ranges, as in the Python patterns. -/

/-- Longest leading run of ASCII lowercase letters, with the remainder
(the greedy `[a-z]*` / `[a-z]+` step of the patterns). -/
def takeLowerRun : List Char → List Char × List Char
  | [] => ([], [])
  | c :: rest =>
    if c.isLower then
      let pr := takeLowerRun rest
      (c :: pr.1, pr.2)
    else ([], c :: rest)

/-- Match the capture group `[A-Z][a-z]+ ?[A-Z]?[a-z]*` at the head of the
input, resolved as the Python regex engine does: `[a-z]+` takes its
maximal run, then each of ` ?`, `[A-Z]?` and `[a-z]*` greedily consumes
its character(s) when present and matches empty otherwise.  No
backtracking can occur because every piece after `[a-z]+` can match the
empty string and the three character classes (space, uppercase,
lowercase) are disjoint, so the greedy choice never blocks a later
piece.  The optional space and the optional uppercase are independent:
`"in McDonald"` captures `"McDonald"`, `"in Mc Donald"` captures
`"Mc Donald"`, `"in Ab cd"` captures `"Ab cd"`.  Returns the captured
characters and the rest of the input after the match. -/
def matchCapPhrase : List Char → Option (List Char × List Char)
  | [] => none
  | c :: rest =>
    if c.isUpper then
      let pr := takeLowerRun rest
      if pr.1 = [] then none
      else
        match pr.2 with
        | ' ' :: r2 =>
          match r2 with
          | d :: r3 =>
            if d.isUpper then
              let q := takeLowerRun r3
              some (c :: pr.1 ++ ' ' :: d :: q.1, q.2)
            else
              let q := takeLowerRun r2
              some (c :: pr.1 ++ ' ' :: q.1, q.2)
          | [] => some (c :: pr.1 ++ [' '], [])
        | d :: r3 =>
          if d.isUpper then
            let q := takeLowerRun r3
            some (c :: pr.1 ++ d :: q.1, q.2)
          else
            some (c :: pr.1, d :: r3)
        | [] => some (c :: pr.1, [])
    else none

/-- Match a literal character sequence at the head of the input, returning
the remainder on success. -/
def dropLit : List Char → List Char → Option (List Char)
  | [], s => some s
  | _ :: _, [] => none
  | l :: ls, c :: cs => if c = l then dropLit ls cs else none

/-- `re.findall` for a pattern `<literal>([A-Z][a-z]+ ?[A-Z]?[a-z]*)`:
left-to-right scan, non-overlapping matches, returning the list of group
captures.  The fuel argument is the length of the scanned text; every step
consumes at least one character, so that fuel is always sufficient. -/
def findPrepMatches (lit : List Char) : Nat → List Char → List (List Char)
  | 0, _ => []
  | _, [] => []
  | fuel + 1, c :: rest =>
    match dropLit lit (c :: rest) with
    | some afterLit =>
      match matchCapPhrase afterLit with
      | some (cap, restAfter) => cap :: findPrepMatches lit fuel restAfter
      | none => findPrepMatches lit fuel rest
    | none => findPrepMatches lit fuel rest

/-- Python's `\w` on ASCII input: letters, digits and underscore. -/
def isWordChar (c : Char) : Bool := c.isAlphanum || c = '_'

/-- `re.findall(r"\b[A-Z][a-z]+\b", text)`: capitalized words delimited by
word boundaries.  The boolean argument records whether the character before
the current scan position is a word character. -/
def findCapWords : Nat → Bool → List Char → List (List Char)
  | 0, _, _ => []
  | _, _, [] => []
  | fuel + 1, prevIsWord, c :: rest =>
    if !prevIsWord && c.isUpper then
      let pr := takeLowerRun rest
      let boundaryOk := match pr.2 with
        | [] => true
        | d :: _ => !(isWordChar d)
      if pr.1 ≠ [] && boundaryOk then
        (c :: pr.1) :: findCapWords fuel true pr.2
      else
        findCapWords fuel (isWordChar c) rest
    else
      findCapWords fuel (isWordChar c) rest

/-- ASCII lowercasing of a character list (Python `str.lower()` on the
ASCII strings this module handles). -/
def lowerCs (s : List Char) : List Char := s.map Char.toLower

/-- `re.compile(re.escape(pat), re.IGNORECASE).search(text)` for a
lowercase literal `pat`: the first case-insensitive occurrence, returned
with the original text's casing (`match.group(0)`). -/
def ciFind (pat : List Char) : List Char → Option (List Char)
  | [] => none
  | c :: rest =>
    if pat.isPrefixOf (lowerCs (c :: rest)) then some ((c :: rest).take pat.length)
    else ciFind pat rest

/-- ASCII lowercasing (Python `str.lower()` on this module's strings). -/
def strLower (s : String) : String := String.mk (lowerCs s.data)

/-- Python's `str.strip()`: remove leading and trailing whitespace. -/
def pyStrip (s : String) : String :=
  String.mk (((s.data.dropWhile Char.isWhitespace).reverse.dropWhile Char.isWhitespace).reverse)

/-- Containment of one character list in another (Python `pat in hay`). -/
def listContains (hay pat : List Char) : Bool :=
  match hay with
  | [] => pat.isEmpty
  | _ :: rest => pat.isPrefixOf hay || listContains rest pat

/-- Substring test, Python's `pat in hay`. -/
def strContains (hay pat : String) : Bool := listContains hay.data pat.data

/-- Worker for `pySplit`: accumulates the current word (reversed). -/
def pySplitCs : List Char → List Char → List String
  | [], acc => if acc.isEmpty then [] else [String.mk acc.reverse]
  | c :: rest, acc =>
    if c.isWhitespace then
      if acc.isEmpty then pySplitCs rest []
      else String.mk acc.reverse :: pySplitCs rest []
    else pySplitCs rest (c :: acc)

/-- Python's `str.split()`: split on whitespace, dropping empty pieces. -/
def pySplit (s : String) : List String := pySplitCs s.data []

/-! ## The module-level tables of `location_parser.py` -/

/-- `LOCATION_PATTERNS`, reduced to their literal preposition prefixes:
each Python pattern is `<literal>([A-Z][a-z]+ ?[A-Z]?[a-z]*)` and the
literal (with its trailing space) is all that varies. -/
def LOCATION_PATTERNS : List String :=
  ["in ", "from ", "at ", "near ", "to ", "visiting ",
   "live in ", "based in ", "located in "]

/-- `MAJOR_LOCATIONS`: the gazetteer of major cities, countries and US
states.  The Python source builds a `set`; membership is what the module
mostly uses, but two loops iterate over it, so the literal source order is
kept here as the (deterministic) model of set iteration order. -/
def MAJOR_LOCATIONS : List String :=
  ["new york", "los angeles", "chicago", "houston", "phoenix", "philadelphia",
   "san antonio", "san diego", "dallas", "san jose", "austin", "san francisco",
   "boston", "seattle", "miami", "atlanta", "tokyo", "delhi", "shanghai", "sao paulo",
   "mexico city", "cairo", "mumbai", "beijing", "dhaka", "osaka", "london", "paris",
   "istanbul", "moscow", "karachi", "lagos", "manila", "berlin", "rome", "madrid",
   "toronto", "sydney", "melbourne", "singapore", "dubai", "bangkok", "hong kong",
   "kuala lumpur", "jakarta", "seoul", "tehran", "brussels", "johannesburg", "kiev",
   "usa", "united states", "america", "canada", "mexico", "brazil", "argentina",
   "uk", "united kingdom", "england", "france", "germany", "spain", "italy",
   "russia", "china", "japan", "india", "australia", "south korea", "north korea",
   "egypt", "south africa", "nigeria", "kenya", "pakistan", "bangladesh", "thailand",
   "vietnam", "malaysia", "indonesia", "philippines", "new zealand", "ireland",
   "portugal", "sweden", "norway", "denmark", "finland", "belgium", "netherlands",
   "austria", "switzerland", "poland", "ukraine", "turkey", "iran", "iraq", "saudi arabia",
   "uae", "united arab emirates", "qatar", "israel", "lebanon", "singapore",
   "california", "texas", "florida", "new york state", "pennsylvania", "illinois",
   "ohio", "georgia", "north carolina", "michigan", "new jersey", "virginia",
   "washington", "arizona", "massachusetts", "tennessee", "indiana", "missouri",
   "maryland", "wisconsin", "colorado", "minnesota", "south carolina", "alabama",
   "louisiana", "kentucky", "oregon", "oklahoma", "connecticut", "utah", "iowa",
   "nevada", "arkansas", "mississippi", "kansas", "new mexico", "nebraska",
   "west virginia", "idaho", "hawaii", "new hampshire", "maine", "montana",
   "rhode island", "delaware", "south dakota", "north dakota", "alaska", "vermont",
   "wyoming"]

/-- `IGNORE_LOCATIONS`: non-geographic terms never treated as locations. -/
def IGNORE_LOCATIONS : List String :=
  ["twitter", "internet", "home", "work", "everywhere", "nowhere", "online",
   "inbox", "cloud", "worldwide", "global", "earth", "planet", "universe",
   "website", "app", "web", "platform", "social media", "facebook", "instagram",
   "snapchat", "tiktok", "linkedin", "youtube", "twitch", "reality", "cyberspace",
   "metaverse", "matrix", "zoom", "microsoft", "apple", "google", "amazon"]

/-! ## `find_locations_in_text` and the extractor cascade -/

/-- `LocationParser.find_locations_in_text`: pattern matches, capitalized
gazetteer words, and case-insensitive gazetteer phrase hits, merged and
deduplicated.  Python's final `list(set(locations))` has unspecified
order; deduplication keeping first occurrences is the deterministic model
of it. -/
def find_locations_in_text (text : String) : List String :=
  if text = "" then []
  else
    let cs := text.data
    let patternHits :=
      LOCATION_PATTERNS.flatMap (fun lit =>
        ((findPrepMatches lit.data cs.length cs).map (fun cap => String.mk cap)).filter
          (fun m => !IGNORE_LOCATIONS.contains (strLower m)))
    let capHits :=
      ((findCapWords cs.length false cs).map (fun cap => String.mk cap)).filter
        (fun wd => MAJOR_LOCATIONS.contains (strLower wd) && !IGNORE_LOCATIONS.contains (strLower wd))
    let phraseHits :=
      MAJOR_LOCATIONS.filterMap (fun loc =>
        if strContains (strLower text) loc && !IGNORE_LOCATIONS.contains loc then
          (ciFind loc.data cs).map (fun m => String.mk m)
        else none)
    (patternHits ++ capHits ++ phraseHits).eraseDups

/-- `LocationParser.extract_location_from_text`: first found location. -/
def extract_location_from_text (text : String) : Option String :=
  if text = "" then none
  else
    match find_locations_in_text text with
    | [] => none
    | l :: _ => some l

/-- Author profile, as read by the module (`user['location']`,
`user['description']`). -/
structure User where
  location : Option String
  description : Option String
deriving DecidableEq

/-- The `description`-mining arm of `extract_location_from_user_profile`. -/
def descSignal (u : User) : Option String :=
  match u.description with
  | some d => if d = "" then none else (find_locations_in_text d).head?
  | none => none

/-- `LocationParser.extract_location_from_user_profile`: the profile
location field if non-empty and not ignore-listed (after trim+lowercase),
otherwise the first location mined from the biography text. -/
def extract_location_from_user_profile (user : Option User) : Option String :=
  match user with
  | none => none
  | some u =>
    match u.location with
    | some l =>
      if l ≠ "" && !IGNORE_LOCATIONS.contains (strLower (pyStrip l)) then some (pyStrip l)
      else descSignal u
    | none => descSignal u

/-- Geo object on a post (`tweet['geo']['coordinates']`). -/
structure Geo where
  coordinates : Option (List ℚ)
deriving DecidableEq

/-- Place object on a post (`tweet['place']['full_name']`). -/
structure Place where
  full_name : Option String
deriving DecidableEq

/-- A post record, with exactly the fields `location_parser.py` reads. -/
structure Tweet where
  geo : Option Geo
  place : Option Place
  user : Option User
  text : Option String
deriving DecidableEq

/-- Model of Python float-to-string interpolation for the coordinates. -/
def floatStr (q : ℚ) : String :=
  if q.den = 1 then toString q.num else toString q.num ++ "/" ++ toString q.den

/-- The string `f"{coords[0]},{coords[1]}"` built from a geo coordinate
list. -/
def formatCoords (c : List ℚ) : String :=
  floatStr (c.getD 0 0) ++ "," ++ floatStr (c.getD 1 0)

/-- The truthiness-guarded geo signal: `tweet.get('geo') and
tweet['geo'].get('coordinates')` (an absent field, a `None` value and an
empty list are all falsy). -/
def geoCoords (t : Tweet) : Option (List ℚ) :=
  match t.geo with
  | some g =>
    match g.coordinates with
    | some c => if c.isEmpty then none else some c
    | none => none
  | none => none

/-- The truthiness-guarded place signal: `tweet.get('place') and
tweet['place'].get('full_name')` (absent, `None` and `""` are falsy). -/
def placeName (t : Tweet) : Option String :=
  match t.place with
  | some pl =>
    match pl.full_name with
    | some n => if n = "" then none else some n
    | none => none
  | none => none

/-- Python's `x if x else y` on an optional string: an empty string is
falsy and falls through, mirroring `if user_location: return user_location`. -/
def pyOr (a b : Option String) : Option String :=
  match a with
  | some s => if s = "" then b else some s
  | none => b

/-- `LocationParser.extract_location_from_tweet`: the strategy cascade —
geo coordinates, then place full name, then user profile, then post text. -/
def extract_location_from_tweet (t : Tweet) : Option String :=
  match geoCoords t with
  | some c => some (formatCoords c)
  | none =>
    match placeName t with
    | some n => some n
    | none =>
      pyOr (extract_location_from_user_profile t.user)
        (extract_location_from_text (t.text.getD ""))

/-! ## The Geocoder Gateway state model

`LocationParser` instance state is the per-instance attributes of the
Python class: the in-memory cache, the request counter and the
last-request timestamp (both used by `_respect_rate_limit`), plus a ghost
counter of `_save_cache` invocations (the durable flush is file I/O whose
only observable here is that it happened).  The `World` carries what is
global to the process: the wall clock (`time.time()`), the external
geocoding service (an oracle consulted once per outbound query), the
number of outbound queries so far, and a ghost log of the wall-clock
instants at which outbound queries were issued. -/

/-- The opaque `raw` payload of a `GeocodeResult`: either the raw mapping
returned by the geocoding service, or the mapping built by
`add_known_location`. -/
inductive RawMap where
  | service (payload : String)
  | manual (place_id : String) (display_name : String)
      (city : Option String) (country : Option String)
deriving DecidableEq

/-- The cached unit of value (`{input, address, latitude, longitude, raw}`;
every write site of the Python module populates all five keys). -/
structure GeocodeResult where
  input : String
  address : String
  latitude : ℚ
  longitude : ℚ
  raw : RawMap
deriving DecidableEq

/-- One reply of the external geocoding service: a location, no match, one
of the three geopy error classes caught by the module, or any other
exception (which the module's primary attempt does not catch). -/
inductive GeoReply where
  | found (address : String) (latitude : ℚ) (longitude : ℚ) (raw : String)
  | notFound
  | timeout
  | unavailable
  | serviceError
  | otherError
deriving DecidableEq

/-- Lookup in the in-memory cache (Python `location_str in
self.location_cache` / `self.location_cache[location_str]`). -/
def cacheGet (c : List (String × GeocodeResult)) (k : String) : Option GeocodeResult :=
  match c with
  | [] => none
  | (k0, v0) :: rest => if k0 = k then some v0 else cacheGet rest k

/-- Write to the in-memory cache (`self.location_cache[k] = v`): replace
in place if the key exists, else append, as a Python dict does. -/
def cachePut (c : List (String × GeocodeResult)) (k : String) (v : GeocodeResult) :
    List (String × GeocodeResult) :=
  match c with
  | [] => [(k, v)]
  | (k0, v0) :: rest => if k0 = k then (k, v) :: rest else (k0, v0) :: cachePut rest k v

/-- Per-instance state of a `LocationParser` object. -/
structure LocationParser where
  cache : List (String × GeocodeResult)
  requestCount : Nat
  lastRequestTime : ℚ
  saves : Nat
deriving DecidableEq

/-- A freshly constructed parser whose cache file was absent (the
`__init__` defaults: empty cache, `request_count = 0`,
`last_request_time = 0`). -/
def parser0 : LocationParser := ⟨[], 0, 0, 0⟩

/-- Process-global context: wall clock, external service oracle (indexed
by query number and query string), outbound-query count, and the ghost log
of query instants. -/
structure World where
  now : ℚ
  oracle : Nat → String → GeoReply
  calls : Nat
  queryLog : List ℚ

/-- `LocationParser._respect_rate_limit`: sleep until one second has
elapsed since the previous request, stamp the current time, bump the
request counter, and flush the cache every tenth request.  `time.sleep`
is modelled as advancing the wall clock by the requested amount. -/
def respect_rate_limit (p : LocationParser) (w : World) : LocationParser × World :=
  let elapsed : ℚ := w.now - p.lastRequestTime
  let w1 := if elapsed < 1 then { w with now := w.now + (1 - elapsed) } else w
  let p1 := { p with lastRequestTime := w1.now, requestCount := p.requestCount + 1 }
  if p1.requestCount % 10 = 0 then ({ p1 with saves := p1.saves + 1 }, w1) else (p1, w1)

/-- One rate-limited outbound query: `self._respect_rate_limit()` followed
by `self.geolocator.geocode(q, exactly_one=True)`.  The reply comes from
the oracle at the current query index; the query instant is logged. -/
def serviceQuery (p : LocationParser) (w : World) (q : String) :
    GeoReply × LocationParser × World :=
  let pw := respect_rate_limit p w
  (pw.2.oracle pw.2.calls q, pw.1,
    { pw.2 with calls := pw.2.calls + 1, queryLog := pw.2.queryLog ++ [pw.2.now] })

/-- The query string of the primary attempt: the input verbatim when its
lowercase form is a gazetteer entry, else the first gazetteer entry
contained in the lowercased input, else the input verbatim. -/
def primarySearchTerm (locStr : String) : String :=
  if MAJOR_LOCATIONS.contains (strLower locStr) then locStr
  else
    match MAJOR_LOCATIONS.find? (fun loc => strContains (strLower locStr) loc) with
    | some loc => loc
    | none => locStr

/-- The fallback cascade of `geocode_location`: for each whitespace token
of the input whose lowercase form is a gazetteer entry, make one
rate-limited attempt; a `found` reply is cached under the original input
string and returned; every other reply (no match, or any exception — the
loop body's bare `except` swallows everything) moves on to the next token. -/
def fallbackLoop (locStr : String) :
    List String → LocationParser → World → Option GeocodeResult × LocationParser × World
  | [], p, w => (none, p, w)
  | word :: rest, p, w =>
    if MAJOR_LOCATIONS.contains (strLower word) then
      match serviceQuery p w word with
      | (.found addr lat lon rw, p1, w1) =>
        let r : GeocodeResult := ⟨locStr, addr, lat, lon, RawMap.service rw⟩
        (some r, { p1 with cache := cachePut p1.cache locStr r }, w1)
      | (_, p1, w1) => fallbackLoop locStr rest p1 w1
    else fallbackLoop locStr rest p w

/-- `LocationParser.geocode_location`: cache short-circuit, empty-input
check, rate-limited primary attempt (with gazetteer term substitution),
then the token fallback cascade when the input has several tokens.  The
three geopy error classes are caught; any other exception from the primary
attempt propagates (`Except.error`, carrying the mutated state, as a
Python exception leaves `self` mutated). -/
def geocode_location (p : LocationParser) (w : World) (locStr : String) :
    Except (LocationParser × World) (Option GeocodeResult × LocationParser × World) :=
  match cacheGet p.cache locStr with
  | some r => .ok (some r, p, w)
  | none =>
    if locStr = "" then .ok (none, p, w)
    else
      match serviceQuery p w (primarySearchTerm locStr) with
      | (.found addr lat lon rw, p1, w1) =>
        let r : GeocodeResult := ⟨locStr, addr, lat, lon, RawMap.service rw⟩
        .ok (some r, { p1 with cache := cachePut p1.cache locStr r }, w1)
      | (.otherError, p1, w1) => .error (p1, w1)
      | (_, p1, w1) =>
        let words := pySplit locStr
        if 1 < words.length then .ok (fallbackLoop locStr words p1 w1)
        else .ok (none, p1, w1)

/-- A post record after the orchestrator ran: the tweet with the added
`location` key. -/
structure EnrichedTweet where
  tweet : Tweet
  raw_location : Option String
  geocoded : Option GeocodeResult
deriving DecidableEq

/-- `LocationParser.parse_tweet_location`: extract a candidate, geocode it
when truthy, attach both to the tweet. -/
def parse_tweet_location (p : LocationParser) (w : World) (t : Tweet) :
    Except (LocationParser × World) (EnrichedTweet × LocationParser × World) :=
  match extract_location_from_tweet t with
  | some s =>
    if s = "" then .ok (⟨t, some s, none⟩, p, w)
    else
      match geocode_location p w s with
      | .ok (g, p1, w1) => .ok (⟨t, some s, g⟩, p1, w1)
      | .error e => .error e
  | none => .ok (⟨t, none, none⟩, p, w)

/-- Worker for `parse_tweets_location`: the loop body. -/
def parseTweetsLoop (acc : List EnrichedTweet) :
    List Tweet → LocationParser → World →
    Except (LocationParser × World) (List EnrichedTweet × LocationParser × World)
  | [], p, w => .ok (acc.reverse, p, w)
  | t :: ts, p, w =>
    match parse_tweet_location p w t with
    | .ok (e, p1, w1) => parseTweetsLoop (e :: acc) ts p1 w1
    | .error err => .error err

/-- `LocationParser.parse_tweets_location`: process every tweet, then one
terminal `_save_cache()`. -/
def parse_tweets_location (p : LocationParser) (w : World) (ts : List Tweet) :
    Except (LocationParser × World) (List EnrichedTweet × LocationParser × World) :=
  match parseTweetsLoop [] ts p w with
  | .ok (es, p1, w1) => .ok (es, { p1 with saves := p1.saves + 1 }, w1)
  | .error err => .error err

/-- The five preposition-prefixed variant keys that `add_known_location`
also writes. -/
def variantKeys (locStr : String) : List String :=
  ["in " ++ locStr, "from " ++ locStr, "at " ++ locStr,
   "near " ++ locStr, "to " ++ locStr]

/-- `location_str.replace(' ', '_')`. -/
def replaceSpaces (s : String) : String :=
  String.mk (s.data.map (fun c => if c = ' ' then '_' else c))

/-- `LocationParser.add_known_location`: manually seed the cache with a
result for the string and its five preposition-prefixed variants, flushing
after the base write and again after the variant writes.  The `address`,
`city` and `country` keyword arguments default to `None`; `address or
f"{city or ''}, {country or ''}"` treats `None` and `""` as absent. -/
def add_known_location (p : LocationParser) (locStr : String) (lat lon : ℚ)
    (address city country : Option String) : LocationParser :=
  let addr :=
    match address with
    | some a => if a = "" then (city.getD "") ++ ", " ++ (country.getD "") else a
    | none => (city.getD "") ++ ", " ++ (country.getD "")
  let raw := RawMap.manual ("manual_" ++ replaceSpaces locStr) addr city country
  let r : GeocodeResult := ⟨locStr, addr, lat, lon, raw⟩
  let c1 := cachePut p.cache locStr r
  let c2 := (variantKeys locStr).foldl (fun c v => cachePut c v r) c1
  { p with cache := c2, saves := p.saves + 2 }

/-! ## Invariants and the reachability relation -/

/-- The cache-entry shape every write path of the module produces: a
gateway success or a manual base entry stores its own key as `input`; the
five preposition-prefixed variant entries of a manual insert store the
base string. -/
def InputKeyOk (k : String) (r : GeocodeResult) : Prop :=
  r.input = k ∨ k ∈ variantKeys r.input

/-- All cache entries satisfy `InputKeyOk`. -/
def CacheOk (p : LocationParser) : Prop :=
  ∀ k r, cacheGet p.cache k = some r → InputKeyOk k r

/-- Rate-limiter invariant for a single `LocationParser` instance driving
the world: query instants are chronological with gaps of at least one
second, all of them precede the instance's last-request stamp, and the
stamp does not lie in the future. -/
def RateOk (p : LocationParser) (w : World) : Prop :=
  List.Chain' (fun a b => a + 1 ≤ b) w.queryLog ∧
  (∀ t ∈ w.queryLog, t ≤ p.lastRequestTime) ∧
  p.lastRequestTime ≤ w.now

/-- A service reply on which an attempt does not succeed and which the
module catches: no match, or one of the three caught geopy errors. -/
def failedReply (g : GeoReply) : Prop :=
  g = .notFound ∨ g = .timeout ∨ g = .unavailable ∨ g = .serviceError

/-- The whitespace tokens of a string whose lowercase form is a gazetteer
entry — exactly the tokens the fallback cascade queries. -/
def gazTokens (s : String) : List String :=
  (pySplit s).filter (fun t => MAJOR_LOCATIONS.contains (strLower t))

/-- States reachable from a starting parser/world by running the public
operations of the module on that single parser instance, with the wall
clock free to advance between operations.  Erroring operations are
included: a Python exception propagates to the caller but the object state
it leaves behind persists. -/
inductive Reach : LocationParser → World → LocationParser → World → Prop
  | refl (p : LocationParser) (w : World) : Reach p w p w
  | advance {p0 w0 p w} (δ : ℚ) (hδ : 0 ≤ δ) (h : Reach p0 w0 p w) :
      Reach p0 w0 p { w with now := w.now + δ }
  | geocodeOk {p0 w0 p w} (s : String) (res : Option GeocodeResult)
      (p1 : LocationParser) (w1 : World) (h : Reach p0 w0 p w)
      (hs : geocode_location p w s = .ok (res, p1, w1)) : Reach p0 w0 p1 w1
  | geocodeErr {p0 w0 p w} (s : String) (p1 : LocationParser) (w1 : World)
      (h : Reach p0 w0 p w)
      (hs : geocode_location p w s = .error (p1, w1)) : Reach p0 w0 p1 w1
  | addKnown {p0 w0 p w} (s : String) (lat lon : ℚ)
      (address city country : Option String) (h : Reach p0 w0 p w) :
      Reach p0 w0 (add_known_location p s lat lon address city country) w
  | parseOne {p0 w0 p w} (t : Tweet) (e : EnrichedTweet)
      (p1 : LocationParser) (w1 : World) (h : Reach p0 w0 p w)
      (hs : parse_tweet_location p w t = .ok (e, p1, w1)) : Reach p0 w0 p1 w1
  | parseOneErr {p0 w0 p w} (t : Tweet) (p1 : LocationParser) (w1 : World)
      (h : Reach p0 w0 p w)
      (hs : parse_tweet_location p w t = .error (p1, w1)) : Reach p0 w0 p1 w1
  | parseMany {p0 w0 p w} (ts : List Tweet) (es : List EnrichedTweet)
      (p1 : LocationParser) (w1 : World) (h : Reach p0 w0 p w)
      (hs : parse_tweets_location p w ts = .ok (es, p1, w1)) : Reach p0 w0 p1 w1
  | parseManyErr {p0 w0 p w} (ts : List Tweet) (p1 : LocationParser) (w1 : World)
      (h : Reach p0 w0 p w)
      (hs : parse_tweets_location p w ts = .error (p1, w1)) : Reach p0 w0 p1 w1

/-! ## Concrete fixtures: oracles, worlds, posts and expected states -/

/-- A service that never finds a match. -/
def oracleNone : Nat → String → GeoReply := fun _ _ => .notFound

/-- A service that always answers with the same location. -/
def oracleFound : Nat → String → GeoReply := fun _ _ => .found "Addr" 1 2 "rawdata"

/-- A service that always times out. -/
def oracleTimeout : Nat → String → GeoReply := fun _ _ => .timeout

/-- A world whose clock reads 100 seconds, service never matching. -/
def world100 : World := ⟨100, oracleNone, 0, []⟩

/-- A world whose clock reads 100 seconds, service always matching. -/
def worldF : World := ⟨100, oracleFound, 0, []⟩

/-- A world whose clock reads 100 seconds, service always timing out. -/
def worldT : World := ⟨100, oracleTimeout, 0, []⟩

/-- A post whose only signal is the place full name `"qq"`. -/
def tweetQQ : Tweet := ⟨none, some ⟨some "qq"⟩, none, none⟩

/-- A post with explicit geo coordinates, a profile location and a city
mention in its body text. -/
def tweetGeoLondon : Tweet :=
  ⟨some ⟨some [1, 2]⟩, none, some ⟨some "London", none⟩, some "I love London"⟩

/-- A profile whose location field is the ignore-listed `"Twitter"` and
whose biography is empty. -/
def userTwitter : User := ⟨some "Twitter", some ""⟩

/-- A post with no geo or place data, the `"Twitter"` profile, and a city
mention in the body text. -/
def tweetTwitter : Tweet := ⟨none, none, some userTwitter, some "visiting Tokyo"⟩

/-- The result the always-matching service produces for input `"qq"`. -/
def rQQ : GeocodeResult := ⟨"qq", "Addr", 1, 2, .service "rawdata"⟩

/-- Parser state after geocoding `"qq"` against the matching service. -/
def pQQ : LocationParser := ⟨[("qq", rQQ)], 1, 100, 0⟩

/-- World state after one outbound query at instant 100 on `worldF`. -/
def wF1 : World := ⟨100, oracleFound, 1, [100]⟩

/-- The result the matching service produces for `"New York baby"`. -/
def rNY : GeocodeResult := ⟨"New York baby", "Addr", 1, 2, .service "rawdata"⟩

/-- Parser state after geocoding `"New York baby"`. -/
def pNY : LocationParser := ⟨[("New York baby", rNY)], 1, 100, 0⟩

/-- Parser state after one failed attempt from `parser0` at instant 100. -/
def p1c : LocationParser := ⟨[], 1, 100, 0⟩

/-- World state after one failed attempt at instant 100 on `world100`. -/
def w1c : World := ⟨100, oracleNone, 1, [100]⟩

/-- Parser state after a second failed attempt (slept to instant 101). -/
def p2c : LocationParser := ⟨[], 2, 101, 0⟩

/-- World after two rate-limited attempts by one instance: 100, then 101. -/
def w2c : World := ⟨101, oracleNone, 2, [100, 101]⟩

/-- World after two attempts by two distinct fresh instances: both at 100. -/
def w2x : World := ⟨100, oracleNone, 2, [100, 100]⟩

/-- A parser that has already made nine external attempts. -/
def p9 : LocationParser := ⟨[], 9, 0, 0⟩

/-- State of `p9` after its tenth attempt: the modulo-10 flush fired. -/
def p10c : LocationParser := ⟨[], 10, 100, 1⟩

/-- State of `p9` after a one-post batch: periodic plus terminal flush. -/
def pT9 : LocationParser := ⟨[], 10, 100, 2⟩

/-- State of `parser0` after a one-post batch with one failed attempt. -/
def pT1 : LocationParser := ⟨[], 1, 100, 1⟩

/-- The enriched record a failed geocode of `tweetQQ` produces. -/
def eQQ : EnrichedTweet := ⟨tweetQQ, some "qq", none⟩

/-- Manual insert of London with the example coordinates. -/
def pLondon : LocationParser :=
  add_known_location parser0 "London" (515074/10000) (-1278/10000) none
    (some "London") (some "United Kingdom")

/-! ## Basic lemmas about the cache and the rate limiter -/

theorem cacheGet_cachePut (c : List (String × GeocodeResult)) (k k' : String) (v : GeocodeResult) :
    cacheGet (cachePut c k v) k' = if k = k' then some v else cacheGet c k' := by
  induction c with
  | nil => simp [cachePut, cacheGet]
  | cons hd tl ih =>
    obtain ⟨k0, v0⟩ := hd
    by_cases h0 : k0 = k
    · subst h0
      simp only [cachePut, if_pos rfl, cacheGet]
      by_cases h1 : k0 = k' <;> simp [h1]
    · simp only [cachePut, if_neg h0, cacheGet]
      by_cases h1 : k0 = k'
      · subst h1
        have : ¬ k = k0 := fun h => h0 h.symm
        simp [this]
      · simp [h1, ih]

theorem respect_rate_limit_fst (p : LocationParser) (w : World) :
    (respect_rate_limit p w).1 =
      ⟨p.cache, p.requestCount + 1, (respect_rate_limit p w).2.now,
        if (p.requestCount + 1) % 10 = 0 then p.saves + 1 else p.saves⟩ := by
  unfold respect_rate_limit
  dsimp only
  split <;> split <;> rfl

theorem respect_rate_limit_snd (p : LocationParser) (w : World) :
    (respect_rate_limit p w).2 =
      ⟨if w.now - p.lastRequestTime < 1 then w.now + (1 - (w.now - p.lastRequestTime)) else w.now,
        w.oracle, w.calls, w.queryLog⟩ := by
  unfold respect_rate_limit
  dsimp only
  split <;> split <;> simp_all

theorem respect_rate_limit_now_ge (p : LocationParser) (w : World) :
    p.lastRequestTime + 1 ≤ (respect_rate_limit p w).2.now := by
  rw [respect_rate_limit_snd]
  dsimp only
  split
  · linarith
  · linarith [not_lt.mp (by assumption : ¬ w.now - p.lastRequestTime < 1)]

theorem respect_rate_limit_now_ge_now (p : LocationParser) (w : World) :
    w.now ≤ (respect_rate_limit p w).2.now := by
  rw [respect_rate_limit_snd]
  dsimp only
  split
  · linarith
  · exact le_refl _

/-- Component description of `serviceQuery`: the instance state after one
outbound query. -/
theorem serviceQuery_snd_fst (p : LocationParser) (w : World) (q : String) :
    (serviceQuery p w q).2.1 = (respect_rate_limit p w).1 := rfl

theorem serviceQuery_snd_snd (p : LocationParser) (w : World) (q : String) :
    (serviceQuery p w q).2.2 =
      ⟨(respect_rate_limit p w).2.now, w.oracle, w.calls + 1,
        w.queryLog ++ [(respect_rate_limit p w).2.now]⟩ := by
  show ({ (respect_rate_limit p w).2 with
      calls := (respect_rate_limit p w).2.calls + 1,
      queryLog := (respect_rate_limit p w).2.queryLog ++ [(respect_rate_limit p w).2.now] } : World) = _
  rw [respect_rate_limit_snd]

theorem serviceQuery_cache (p : LocationParser) (w : World) (q : String) :
    (serviceQuery p w q).2.1.cache = p.cache := by
  rw [serviceQuery_snd_fst, respect_rate_limit_fst]

theorem serviceQuery_oracle (p : LocationParser) (w : World) (q : String) :
    (serviceQuery p w q).2.2.oracle = w.oracle := by
  rw [serviceQuery_snd_snd]

/-! ## Effect lemmas for the fallback cascade and `geocode_location` -/

theorem fallbackLoop_some (locStr : String) (toks : List String) :
    ∀ p w r p1 w1, fallbackLoop locStr toks p w = (some r, p1, w1) →
      r.input = locStr ∧ p1.cache = cachePut p.cache locStr r ∧ w1.oracle = w.oracle := by
  induction toks with
  | nil =>
    intro p w r p1 w1 h
    simp [fallbackLoop] at h
  | cons word rest ih =>
    intro p w r p1 w1 h
    simp only [fallbackLoop] at h
    by_cases hg : MAJOR_LOCATIONS.contains (strLower word) = true
    · rw [if_pos hg] at h
      rcases hsq : serviceQuery p w word with ⟨reply, pa, wa⟩
      rw [hsq] at h
      have hpa : pa.cache = p.cache := by
        have := serviceQuery_cache p w word
        rw [hsq] at this
        exact this
      have hwa : wa.oracle = w.oracle := by
        have := serviceQuery_oracle p w word
        rw [hsq] at this
        exact this
      cases reply with
      | found addr lat lon rw0 =>
        simp only [Prod.mk.injEq] at h
        obtain ⟨hr, hp1, hw1⟩ := h
        have hr2 : r = ⟨locStr, addr, lat, lon, RawMap.service rw0⟩ := (Option.some.inj hr).symm
        subst hr2 hp1 hw1
        exact ⟨rfl, by simp [hpa], hwa⟩
      | notFound =>
        obtain ⟨h1, h2, h3⟩ := ih pa wa r p1 w1 h
        exact ⟨h1, by rw [h2, hpa], by rw [h3, hwa]⟩
      | timeout =>
        obtain ⟨h1, h2, h3⟩ := ih pa wa r p1 w1 h
        exact ⟨h1, by rw [h2, hpa], by rw [h3, hwa]⟩
      | unavailable =>
        obtain ⟨h1, h2, h3⟩ := ih pa wa r p1 w1 h
        exact ⟨h1, by rw [h2, hpa], by rw [h3, hwa]⟩
      | serviceError =>
        obtain ⟨h1, h2, h3⟩ := ih pa wa r p1 w1 h
        exact ⟨h1, by rw [h2, hpa], by rw [h3, hwa]⟩
      | otherError =>
        obtain ⟨h1, h2, h3⟩ := ih pa wa r p1 w1 h
        exact ⟨h1, by rw [h2, hpa], by rw [h3, hwa]⟩
    · rw [if_neg hg] at h
      exact ih p w r p1 w1 h

theorem fallbackLoop_none (locStr : String) (toks : List String) :
    ∀ p w p1 w1, fallbackLoop locStr toks p w = (none, p1, w1) →
      p1.cache = p.cache ∧ w1.oracle = w.oracle := by
  induction toks with
  | nil =>
    intro p w p1 w1 h
    simp only [fallbackLoop, Prod.mk.injEq] at h
    obtain ⟨-, hp1, hw1⟩ := h
    subst hp1 hw1
    exact ⟨rfl, rfl⟩
  | cons word rest ih =>
    intro p w p1 w1 h
    simp only [fallbackLoop] at h
    by_cases hg : MAJOR_LOCATIONS.contains (strLower word) = true
    · rw [if_pos hg] at h
      rcases hsq : serviceQuery p w word with ⟨reply, pa, wa⟩
      rw [hsq] at h
      have hpa : pa.cache = p.cache := by
        have := serviceQuery_cache p w word
        rw [hsq] at this
        exact this
      have hwa : wa.oracle = w.oracle := by
        have := serviceQuery_oracle p w word
        rw [hsq] at this
        exact this
      cases reply with
      | found addr lat lon rw0 => simp at h
      | notFound =>
        obtain ⟨h1, h2⟩ := ih pa wa p1 w1 h
        exact ⟨by rw [h1, hpa], by rw [h2, hwa]⟩
      | timeout =>
        obtain ⟨h1, h2⟩ := ih pa wa p1 w1 h
        exact ⟨by rw [h1, hpa], by rw [h2, hwa]⟩
      | unavailable =>
        obtain ⟨h1, h2⟩ := ih pa wa p1 w1 h
        exact ⟨by rw [h1, hpa], by rw [h2, hwa]⟩
      | serviceError =>
        obtain ⟨h1, h2⟩ := ih pa wa p1 w1 h
        exact ⟨by rw [h1, hpa], by rw [h2, hwa]⟩
      | otherError =>
        obtain ⟨h1, h2⟩ := ih pa wa p1 w1 h
        exact ⟨by rw [h1, hpa], by rw [h2, hwa]⟩
    · rw [if_neg hg] at h
      exact ih p w p1 w1 h

/-- Case analysis of a successful `geocode_location`: either the cache was
hit and nothing changed, or the result was freshly obtained, carries the
original input string, and was written to the cache under it. -/
theorem geocode_ok_some (p : LocationParser) (w : World) (s : String)
    (r : GeocodeResult) (p1 : LocationParser) (w1 : World)
    (h : geocode_location p w s = .ok (some r, p1, w1)) :
    (cacheGet p.cache s = some r ∧ p1 = p ∧ w1 = w) ∨
    (cacheGet p.cache s = none ∧ r.input = s ∧ p1.cache = cachePut p.cache s r) := by
  simp only [geocode_location] at h
  rcases hc : cacheGet p.cache s with _ | r0
  all_goals rw [hc] at h
  all_goals dsimp only at h
  case some =>
    simp only [Except.ok.injEq, Prod.mk.injEq] at h
    obtain ⟨hr, hp1, hw1⟩ := h
    exact Or.inl ⟨hr, hp1.symm, hw1.symm⟩
  case none =>
    by_cases hs : s = ""
    · rw [if_pos hs] at h
      simp at h
    · rw [if_neg hs] at h
      rcases hsq : serviceQuery p w (primarySearchTerm s) with ⟨reply, pa, wa⟩
      rw [hsq] at h
      have hpa : pa.cache = p.cache := by
        have := serviceQuery_cache p w (primarySearchTerm s)
        rw [hsq] at this
        exact this
      cases reply with
      | found addr lat lon rw0 =>
        dsimp only at h
        simp only [Except.ok.injEq, Prod.mk.injEq] at h
        obtain ⟨hr, hp1, hw1⟩ := h
        have hr2 : r = ⟨s, addr, lat, lon, RawMap.service rw0⟩ := (Option.some.inj hr).symm
        subst hr2 hp1 hw1
        exact Or.inr ⟨rfl, rfl, by simp [hpa]⟩
      | otherError => dsimp only at h; simp at h
      | notFound =>
        dsimp only at h
        by_cases hlen : 1 < (pySplit s).length
        · rw [if_pos hlen] at h
          obtain ⟨h1, h2, h3⟩ := fallbackLoop_some s (pySplit s) pa wa r p1 w1 (Except.ok.inj h)
          exact Or.inr ⟨rfl, h1, by rw [h2, hpa]⟩
        · rw [if_neg hlen] at h
          simp at h
      | timeout =>
        dsimp only at h
        by_cases hlen : 1 < (pySplit s).length
        · rw [if_pos hlen] at h
          obtain ⟨h1, h2, h3⟩ := fallbackLoop_some s (pySplit s) pa wa r p1 w1 (Except.ok.inj h)
          exact Or.inr ⟨rfl, h1, by rw [h2, hpa]⟩
        · rw [if_neg hlen] at h
          simp at h
      | unavailable =>
        dsimp only at h
        by_cases hlen : 1 < (pySplit s).length
        · rw [if_pos hlen] at h
          obtain ⟨h1, h2, h3⟩ := fallbackLoop_some s (pySplit s) pa wa r p1 w1 (Except.ok.inj h)
          exact Or.inr ⟨rfl, h1, by rw [h2, hpa]⟩
        · rw [if_neg hlen] at h
          simp at h
      | serviceError =>
        dsimp only at h
        by_cases hlen : 1 < (pySplit s).length
        · rw [if_pos hlen] at h
          obtain ⟨h1, h2, h3⟩ := fallbackLoop_some s (pySplit s) pa wa r p1 w1 (Except.ok.inj h)
          exact Or.inr ⟨rfl, h1, by rw [h2, hpa]⟩
        · rw [if_neg hlen] at h
          simp at h

/-- A `geocode_location` call that returns `none` leaves the in-memory
cache untouched. -/
theorem geocode_ok_none (p : LocationParser) (w : World) (s : String)
    (p1 : LocationParser) (w1 : World)
    (h : geocode_location p w s = .ok (none, p1, w1)) :
    p1.cache = p.cache := by
  simp only [geocode_location] at h
  rcases hc : cacheGet p.cache s with _ | r0
  all_goals rw [hc] at h
  all_goals dsimp only at h
  case some => simp at h
  case none =>
    by_cases hs : s = ""
    · rw [if_pos hs] at h
      simp only [Except.ok.injEq, Prod.mk.injEq] at h
      obtain ⟨-, hp1, -⟩ := h
      rw [← hp1]
    · rw [if_neg hs] at h
      rcases hsq : serviceQuery p w (primarySearchTerm s) with ⟨reply, pa, wa⟩
      rw [hsq] at h
      have hpa : pa.cache = p.cache := by
        have := serviceQuery_cache p w (primarySearchTerm s)
        rw [hsq] at this
        exact this
      cases reply with
      | found addr lat lon rw0 => dsimp only at h; simp at h
      | otherError => dsimp only at h; simp at h
      | notFound =>
        dsimp only at h
        by_cases hlen : 1 < (pySplit s).length
        · rw [if_pos hlen] at h
          obtain ⟨h1, -⟩ := fallbackLoop_none s (pySplit s) pa wa p1 w1 (Except.ok.inj h)
          rw [h1, hpa]
        · rw [if_neg hlen] at h
          simp only [Except.ok.injEq, Prod.mk.injEq] at h
          obtain ⟨-, hp1, -⟩ := h
          rw [← hp1, hpa]
      | timeout =>
        dsimp only at h
        by_cases hlen : 1 < (pySplit s).length
        · rw [if_pos hlen] at h
          obtain ⟨h1, -⟩ := fallbackLoop_none s (pySplit s) pa wa p1 w1 (Except.ok.inj h)
          rw [h1, hpa]
        · rw [if_neg hlen] at h
          simp only [Except.ok.injEq, Prod.mk.injEq] at h
          obtain ⟨-, hp1, -⟩ := h
          rw [← hp1, hpa]
      | unavailable =>
        dsimp only at h
        by_cases hlen : 1 < (pySplit s).length
        · rw [if_pos hlen] at h
          obtain ⟨h1, -⟩ := fallbackLoop_none s (pySplit s) pa wa p1 w1 (Except.ok.inj h)
          rw [h1, hpa]
        · rw [if_neg hlen] at h
          simp only [Except.ok.injEq, Prod.mk.injEq] at h
          obtain ⟨-, hp1, -⟩ := h
          rw [← hp1, hpa]
      | serviceError =>
        dsimp only at h
        by_cases hlen : 1 < (pySplit s).length
        · rw [if_pos hlen] at h
          obtain ⟨h1, -⟩ := fallbackLoop_none s (pySplit s) pa wa p1 w1 (Except.ok.inj h)
          rw [h1, hpa]
        · rw [if_neg hlen] at h
          simp only [Except.ok.injEq, Prod.mk.injEq] at h
          obtain ⟨-, hp1, -⟩ := h
          rw [← hp1, hpa]

/-- A `geocode_location` call that raises (the uncaught-exception path)
leaves the in-memory cache untouched. -/
theorem geocode_err_cache (p : LocationParser) (w : World) (s : String)
    (p1 : LocationParser) (w1 : World)
    (h : geocode_location p w s = .error (p1, w1)) :
    p1.cache = p.cache := by
  simp only [geocode_location] at h
  rcases hc : cacheGet p.cache s with _ | r0
  all_goals rw [hc] at h
  all_goals dsimp only at h
  case some => simp at h
  case none =>
    by_cases hs : s = ""
    · rw [if_pos hs] at h
      simp at h
    · rw [if_neg hs] at h
      rcases hsq : serviceQuery p w (primarySearchTerm s) with ⟨reply, pa, wa⟩
      rw [hsq] at h
      have hpa : pa.cache = p.cache := by
        have := serviceQuery_cache p w (primarySearchTerm s)
        rw [hsq] at this
        exact this
      cases reply with
      | found addr lat lon rw0 => dsimp only at h; simp at h
      | otherError =>
        dsimp only at h
        simp only [Except.error.injEq, Prod.mk.injEq] at h
        obtain ⟨hp1, -⟩ := h
        rw [← hp1, hpa]
      | notFound =>
        dsimp only at h
        by_cases hlen : 1 < (pySplit s).length
        · rw [if_pos hlen] at h
          simp at h
        · rw [if_neg hlen] at h
          simp at h
      | timeout =>
        dsimp only at h
        by_cases hlen : 1 < (pySplit s).length
        · rw [if_pos hlen] at h
          simp at h
        · rw [if_neg hlen] at h
          simp at h
      | unavailable =>
        dsimp only at h
        by_cases hlen : 1 < (pySplit s).length
        · rw [if_pos hlen] at h
          simp at h
        · rw [if_neg hlen] at h
          simp at h
      | serviceError =>
        dsimp only at h
        by_cases hlen : 1 < (pySplit s).length
        · rw [if_pos hlen] at h
          simp at h
        · rw [if_neg hlen] at h
          simp at h


/-! ## Manual-insert cache lemmas -/

theorem cacheGet_foldl_cachePut (r : GeocodeResult) (ks : List String) :
    ∀ (c : List (String × GeocodeResult)) (k : String),
      cacheGet (ks.foldl (fun c' v => cachePut c' v r) c) k =
        if k ∈ ks then some r else cacheGet c k := by
  induction ks with
  | nil => intro c k; simp
  | cons v ks ih =>
    intro c k
    simp only [List.foldl_cons, ih, cacheGet_cachePut, List.mem_cons]
    by_cases hk : k ∈ ks
    · simp [hk]
    · by_cases hv : v = k
      · simp [hv, hk]
      · have : ¬ k = v := fun h => hv h.symm
        simp [hk, this, hv]

theorem ne_prepend_self (pre s : String) (h : pre.length ≠ 0) : s ≠ pre ++ s := by
  intro he
  have h2 := congrArg String.length he
  rw [String.length_append] at h2
  omega

theorem not_mem_variantKeys (s : String) : s ∉ variantKeys s := by
  intro h
  simp only [variantKeys, List.mem_cons, List.not_mem_nil, or_false] at h
  rcases h with h | h | h | h | h
  · exact ne_prepend_self "in " s (by decide) h
  · exact ne_prepend_self "from " s (by decide) h
  · exact ne_prepend_self "at " s (by decide) h
  · exact ne_prepend_self "near " s (by decide) h
  · exact ne_prepend_self "to " s (by decide) h

/-- The cache written by `add_known_location`: the base key and the five
variants all map to the freshly built result; other keys are untouched. -/
theorem add_known_location_cacheGet (p : LocationParser) (s : String) (lat lon : ℚ)
    (address city country : Option String) (k : String) :
    cacheGet (add_known_location p s lat lon address city country).cache k =
      (let addr :=
        match address with
        | some a => if a = "" then (city.getD "") ++ ", " ++ (country.getD "") else a
        | none => (city.getD "") ++ ", " ++ (country.getD "")
       let r : GeocodeResult :=
        ⟨s, addr, lat, lon, RawMap.manual ("manual_" ++ replaceSpaces s) addr city country⟩
       if k ∈ variantKeys s then some r else if s = k then some r else cacheGet p.cache k) := by
  simp only [add_known_location, cacheGet_foldl_cachePut, cacheGet_cachePut]

/-! ## Claim theorems: extractor -/

/-- C1: the Extractor tries signals in strict priority order and returns
the first non-empty result.  Explicit geo coordinates yield the
`"{lat},{lon}"` string immediately — regardless of every other field of
the post, so a post with both coordinates and a city mention in its body
yields the coordinates-derived string.  With no coordinates, a truthy
place full name is returned; with neither, the result is the profile
signal (location field, then biography mining) and, when that is falsy,
body-text mining. -/
theorem C1_extractor_priority (t : Tweet) :
    (∀ c, geoCoords t = some c → extract_location_from_tweet t = some (formatCoords c)) ∧
    (geoCoords t = none → ∀ n, placeName t = some n → extract_location_from_tweet t = some n) ∧
    (geoCoords t = none → placeName t = none →
      extract_location_from_tweet t =
        pyOr (extract_location_from_user_profile t.user)
          (extract_location_from_text (t.text.getD ""))) := by
  refine ⟨?_, ?_, ?_⟩
  · intro c hc
    simp [extract_location_from_tweet, hc]
  · intro hg n hn
    simp [extract_location_from_tweet, hg, hn]
  · intro hg hp
    simp [extract_location_from_tweet, hg, hp]

/-- C8: an ignore-listed profile location field (compared after trimming
and lowercasing) yields no candidate from that signal; the profile signal
degrades to biography mining, and the extractor result is the biography
signal followed by body-text mining, so it is `none` only if both are
empty. -/
theorem C8_ignore_list_fallthrough (t : Tweet) (u : User) (l : String)
    (hu : t.user = some u) (hl : u.location = some l) (hne : l ≠ "")
    (hig : IGNORE_LOCATIONS.contains (strLower (pyStrip l)) = true)
    (hg : geoCoords t = none) (hp : placeName t = none) :
    extract_location_from_user_profile t.user = descSignal u ∧
    extract_location_from_tweet t =
      pyOr (descSignal u) (extract_location_from_text (t.text.getD "")) := by
  have h1 : extract_location_from_user_profile t.user = descSignal u := by
    have hmem : strLower (pyStrip l) ∈ IGNORE_LOCATIONS := by simpa using hig
    have hcond : (decide (l ≠ "") && !IGNORE_LOCATIONS.contains (strLower (pyStrip l))) = false := by
      simp [hmem]
    rw [hu]
    simp only [extract_location_from_user_profile, hl, hcond]
    simp
  refine ⟨h1, ?_⟩
  simp [extract_location_from_tweet, hg, hp, h1]

/-! ## Claim theorems: gateway and cache -/

/-- C2: the Gateway is idempotent through the cache.  If a call returned a
result, an immediately repeated call with the same string returns the
identical result and the identical states — in particular the world is
untouched: no oracle consultation, no query logged, no clock movement. -/
theorem C2_gateway_idempotent (p : LocationParser) (w : World) (s : String)
    (r : GeocodeResult) (p1 : LocationParser) (w1 : World)
    (h : geocode_location p w s = .ok (some r, p1, w1)) :
    geocode_location p1 w1 s = .ok (some r, p1, w1) := by
  have hcached : cacheGet p1.cache s = some r := by
    rcases geocode_ok_some p w s r p1 w1 h with ⟨hc, hp, hw⟩ | ⟨hc, hi, hx⟩
    · rw [hp]
      exact hc
    · rw [hx, cacheGet_cachePut]
      simp
  simp only [geocode_location, hcached]

/-- C3: cache-key fidelity.  A geocode that succeeds on a cache miss —
through the primary query (with or without gazetteer substitution) or
through a fallback token — stores its result keyed by the original input
string, the stored result's `input` field is that original string, and the
cache is otherwise unchanged. -/
theorem C3_cache_key_fidelity (p : LocationParser) (w : World) (s : String)
    (r : GeocodeResult) (p1 : LocationParser) (w1 : World)
    (hmiss : cacheGet p.cache s = none)
    (h : geocode_location p w s = .ok (some r, p1, w1)) :
    r.input = s ∧ p1.cache = cachePut p.cache s r ∧ cacheGet p1.cache s = some r := by
  rcases geocode_ok_some p w s r p1 w1 h with ⟨hc, -, -⟩ | ⟨-, hi, hx⟩
  · rw [hmiss] at hc
    cases hc
  · refine ⟨hi, hx, ?_⟩
    rw [hx, cacheGet_cachePut]
    simp

/-- C9: manual-insert round trip.  After `add_known_location`, a Gateway
call on the same string returns a result carrying exactly the inserted
coordinates, with both the parser and the world unchanged — no external
call, no rate-limit delay. -/
theorem C9_manual_roundtrip (p : LocationParser) (w : World) (s : String) (lat lon : ℚ)
    (address city country : Option String) :
    ∃ r, geocode_location (add_known_location p s lat lon address city country) w s =
        .ok (some r, add_known_location p s lat lon address city country, w) ∧
      r.latitude = lat ∧ r.longitude = lon ∧ r.input = s := by
  have hget := add_known_location_cacheGet p s lat lon address city country s
  rw [if_neg (not_mem_variantKeys s), if_pos rfl] at hget
  obtain ⟨r0, hr0, hlat, hlon, hinp⟩ :
      ∃ r0, cacheGet (add_known_location p s lat lon address city country).cache s = some r0 ∧
        r0.latitude = lat ∧ r0.longitude = lon ∧ r0.input = s := ⟨_, hget, rfl, rfl, rfl⟩
  exact ⟨r0, by simp only [geocode_location, hr0], hlat, hlon, hinp⟩

/-- C10: failure atomicity.  Whenever the Gateway returns `none` — empty
input, no service match, or every attempt failing — the in-memory cache is
exactly what it was before the call, so no negative result is ever
cached. -/
theorem C10_failure_writes_nothing (p : LocationParser) (w : World) (s : String)
    (p1 : LocationParser) (w1 : World)
    (h : geocode_location p w s = .ok (none, p1, w1)) :
    p1.cache = p.cache :=
  geocode_ok_none p w s p1 w1 h

/-! ## Generic preservation of state predicates

Any predicate on parser/world state that is preserved by one rate-limited
outbound query (`serviceQuery`) and indifferent to cache rewrites is
preserved by every gateway operation.  This factors the case analysis of
`geocode_location` out of the rate-limit and flush-cadence proofs. -/

theorem fallbackLoop_preserves (P : LocationParser → World → Prop)
    (hstep : ∀ p w q, P p w → P (serviceQuery p w q).2.1 (serviceQuery p w q).2.2)
    (hcache : ∀ p w c, P p w → P { p with cache := c } w)
    (locStr : String) (toks : List String) :
    ∀ p w res p1 w1, fallbackLoop locStr toks p w = (res, p1, w1) → P p w → P p1 w1 := by
  induction toks with
  | nil =>
    intro p w res p1 w1 h hp
    simp only [fallbackLoop, Prod.mk.injEq] at h
    obtain ⟨-, h1, h2⟩ := h
    subst h1 h2
    exact hp
  | cons word rest ih =>
    intro p w res p1 w1 h hp
    simp only [fallbackLoop] at h
    by_cases hg : MAJOR_LOCATIONS.contains (strLower word) = true
    · rw [if_pos hg] at h
      rcases hsq : serviceQuery p w word with ⟨reply, pa, wa⟩
      rw [hsq] at h
      have hpa : P pa wa := by
        have := hstep p w word hp
        rw [hsq] at this
        exact this
      cases reply with
      | found addr lat lon rw0 =>
        dsimp only at h
        simp only [Prod.mk.injEq] at h
        obtain ⟨-, h1, h2⟩ := h
        subst h1 h2
        exact hcache pa wa _ hpa
      | notFound => exact ih pa wa res p1 w1 h hpa
      | timeout => exact ih pa wa res p1 w1 h hpa
      | unavailable => exact ih pa wa res p1 w1 h hpa
      | serviceError => exact ih pa wa res p1 w1 h hpa
      | otherError => exact ih pa wa res p1 w1 h hpa
    · rw [if_neg hg] at h
      exact ih p w res p1 w1 h hp

theorem geocode_preserves (P : LocationParser → World → Prop)
    (hstep : ∀ p w q, P p w → P (serviceQuery p w q).2.1 (serviceQuery p w q).2.2)
    (hcache : ∀ p w c, P p w → P { p with cache := c } w)
    (p : LocationParser) (w : World) (s : String) (p1 : LocationParser) (w1 : World)
    (h : (∃ res, geocode_location p w s = .ok (res, p1, w1)) ∨
      geocode_location p w s = .error (p1, w1))
    (hp : P p w) : P p1 w1 := by
  have hone : ∀ (out : Except (LocationParser × World)
      (Option GeocodeResult × LocationParser × World)), geocode_location p w s = out →
      (∀ res, out = .ok (res, p1, w1) → P p1 w1) ∧
      (out = .error (p1, w1) → P p1 w1) := by
    intro out hout
    simp only [geocode_location] at hout
    rcases hc : cacheGet p.cache s with _ | r0
    all_goals rw [hc] at hout
    all_goals dsimp only at hout
    case some =>
      subst hout
      constructor
      · intro res hres
        simp only [Except.ok.injEq, Prod.mk.injEq] at hres
        obtain ⟨-, h1, h2⟩ := hres
        subst h1 h2
        exact hp
      · intro hres
        cases hres
    case none =>
      by_cases hs : s = ""
      · rw [if_pos hs] at hout
        subst hout
        constructor
        · intro res hres
          simp only [Except.ok.injEq, Prod.mk.injEq] at hres
          obtain ⟨-, h1, h2⟩ := hres
          subst h1 h2
          exact hp
        · intro hres
          cases hres
      · rw [if_neg hs] at hout
        rcases hsq : serviceQuery p w (primarySearchTerm s) with ⟨reply, pa, wa⟩
        rw [hsq] at hout
        have hpa : P pa wa := by
          have := hstep p w (primarySearchTerm s) hp
          rw [hsq] at this
          exact this
        cases reply with
        | found addr lat lon rw0 =>
          dsimp only at hout
          subst hout
          constructor
          · intro res hres
            simp only [Except.ok.injEq, Prod.mk.injEq] at hres
            obtain ⟨-, h1, h2⟩ := hres
            subst h1 h2
            exact hcache pa wa _ hpa
          · intro hres
            cases hres
        | otherError =>
          dsimp only at hout
          subst hout
          constructor
          · intro res hres
            cases hres
          · intro hres
            simp only [Except.error.injEq, Prod.mk.injEq] at hres
            obtain ⟨h1, h2⟩ := hres
            subst h1 h2
            exact hpa
        | notFound =>
          dsimp only at hout
          by_cases hlen : 1 < (pySplit s).length
          · rw [if_pos hlen] at hout
            subst hout
            constructor
            · intro res hres
              rcases hfb : fallbackLoop s (pySplit s) pa wa with ⟨res2, pb, wb⟩
              rw [hfb] at hres
              simp only [Except.ok.injEq, Prod.mk.injEq] at hres
              obtain ⟨-, h1, h2⟩ := hres
              subst h1 h2
              exact fallbackLoop_preserves P hstep hcache s (pySplit s) pa wa res2 pb wb hfb hpa
            · intro hres
              rcases hfb : fallbackLoop s (pySplit s) pa wa with ⟨res2, pb, wb⟩
              rw [hfb] at hres
              cases hres
          · rw [if_neg hlen] at hout
            subst hout
            constructor
            · intro res hres
              simp only [Except.ok.injEq, Prod.mk.injEq] at hres
              obtain ⟨-, h1, h2⟩ := hres
              subst h1 h2
              exact hpa
            · intro hres
              cases hres
        | timeout =>
          dsimp only at hout
          by_cases hlen : 1 < (pySplit s).length
          · rw [if_pos hlen] at hout
            subst hout
            constructor
            · intro res hres
              rcases hfb : fallbackLoop s (pySplit s) pa wa with ⟨res2, pb, wb⟩
              rw [hfb] at hres
              simp only [Except.ok.injEq, Prod.mk.injEq] at hres
              obtain ⟨-, h1, h2⟩ := hres
              subst h1 h2
              exact fallbackLoop_preserves P hstep hcache s (pySplit s) pa wa res2 pb wb hfb hpa
            · intro hres
              rcases hfb : fallbackLoop s (pySplit s) pa wa with ⟨res2, pb, wb⟩
              rw [hfb] at hres
              cases hres
          · rw [if_neg hlen] at hout
            subst hout
            constructor
            · intro res hres
              simp only [Except.ok.injEq, Prod.mk.injEq] at hres
              obtain ⟨-, h1, h2⟩ := hres
              subst h1 h2
              exact hpa
            · intro hres
              cases hres
        | unavailable =>
          dsimp only at hout
          by_cases hlen : 1 < (pySplit s).length
          · rw [if_pos hlen] at hout
            subst hout
            constructor
            · intro res hres
              rcases hfb : fallbackLoop s (pySplit s) pa wa with ⟨res2, pb, wb⟩
              rw [hfb] at hres
              simp only [Except.ok.injEq, Prod.mk.injEq] at hres
              obtain ⟨-, h1, h2⟩ := hres
              subst h1 h2
              exact fallbackLoop_preserves P hstep hcache s (pySplit s) pa wa res2 pb wb hfb hpa
            · intro hres
              rcases hfb : fallbackLoop s (pySplit s) pa wa with ⟨res2, pb, wb⟩
              rw [hfb] at hres
              cases hres
          · rw [if_neg hlen] at hout
            subst hout
            constructor
            · intro res hres
              simp only [Except.ok.injEq, Prod.mk.injEq] at hres
              obtain ⟨-, h1, h2⟩ := hres
              subst h1 h2
              exact hpa
            · intro hres
              cases hres
        | serviceError =>
          dsimp only at hout
          by_cases hlen : 1 < (pySplit s).length
          · rw [if_pos hlen] at hout
            subst hout
            constructor
            · intro res hres
              rcases hfb : fallbackLoop s (pySplit s) pa wa with ⟨res2, pb, wb⟩
              rw [hfb] at hres
              simp only [Except.ok.injEq, Prod.mk.injEq] at hres
              obtain ⟨-, h1, h2⟩ := hres
              subst h1 h2
              exact fallbackLoop_preserves P hstep hcache s (pySplit s) pa wa res2 pb wb hfb hpa
            · intro hres
              rcases hfb : fallbackLoop s (pySplit s) pa wa with ⟨res2, pb, wb⟩
              rw [hfb] at hres
              cases hres
          · rw [if_neg hlen] at hout
            subst hout
            constructor
            · intro res hres
              simp only [Except.ok.injEq, Prod.mk.injEq] at hres
              obtain ⟨-, h1, h2⟩ := hres
              subst h1 h2
              exact hpa
            · intro hres
              cases hres
  rcases h with ⟨res, hok⟩ | herr
  · exact (hone _ rfl).1 res hok
  · exact (hone _ rfl).2 herr

theorem parse_tweet_preserves (P : LocationParser → World → Prop)
    (hstep : ∀ p w q, P p w → P (serviceQuery p w q).2.1 (serviceQuery p w q).2.2)
    (hcache : ∀ p w c, P p w → P { p with cache := c } w)
    (p : LocationParser) (w : World) (t : Tweet) (p1 : LocationParser) (w1 : World)
    (h : (∃ e, parse_tweet_location p w t = .ok (e, p1, w1)) ∨
      parse_tweet_location p w t = .error (p1, w1))
    (hp : P p w) : P p1 w1 := by
  have hone : ∀ (out : Except (LocationParser × World)
      (EnrichedTweet × LocationParser × World)), parse_tweet_location p w t = out →
      (∀ e, out = .ok (e, p1, w1) → P p1 w1) ∧
      (out = .error (p1, w1) → P p1 w1) := by
    intro out hout
    simp only [parse_tweet_location] at hout
    rcases hx : extract_location_from_tweet t with _ | s
    all_goals rw [hx] at hout
    all_goals dsimp only at hout
    case none =>
      subst hout
      refine ⟨?_, ?_⟩
      · intro e he
        simp only [Except.ok.injEq, Prod.mk.injEq] at he
        obtain ⟨-, h1, h2⟩ := he
        subst h1 h2
        exact hp
      · intro he
        cases he
    case some =>
      by_cases hs : s = ""
      · rw [if_pos hs] at hout
        subst hout
        refine ⟨?_, ?_⟩
        · intro e he
          simp only [Except.ok.injEq, Prod.mk.injEq] at he
          obtain ⟨-, h1, h2⟩ := he
          subst h1 h2
          exact hp
        · intro he
          cases he
      · rw [if_neg hs] at hout
        rcases hg : geocode_location p w s with ⟨pa, wa⟩ | ⟨g, pa, wa⟩
        · rw [hg] at hout
          subst hout
          refine ⟨?_, ?_⟩
          · intro e he
            cases he
          · intro he
            simp only [Except.error.injEq, Prod.mk.injEq] at he
            obtain ⟨h1, h2⟩ := he
            subst h1 h2
            exact geocode_preserves P hstep hcache p w s pa wa (Or.inr hg) hp
        · rw [hg] at hout
          subst hout
          refine ⟨?_, ?_⟩
          · intro e he
            simp only [Except.ok.injEq, Prod.mk.injEq] at he
            obtain ⟨-, h1, h2⟩ := he
            subst h1 h2
            exact geocode_preserves P hstep hcache p w s pa wa (Or.inl ⟨g, hg⟩) hp
          · intro he
            cases he
  rcases h with ⟨e, hok⟩ | herr
  · exact (hone _ rfl).1 e hok
  · exact (hone _ rfl).2 herr

theorem parseTweetsLoop_preserves (P : LocationParser → World → Prop)
    (hstep : ∀ p w q, P p w → P (serviceQuery p w q).2.1 (serviceQuery p w q).2.2)
    (hcache : ∀ p w c, P p w → P { p with cache := c } w)
    (ts : List Tweet) :
    ∀ acc p w p1 w1,
      ((∃ es, parseTweetsLoop acc ts p w = .ok (es, p1, w1)) ∨
        parseTweetsLoop acc ts p w = .error (p1, w1)) →
      P p w → P p1 w1 := by
  induction ts with
  | nil =>
    intro acc p w p1 w1 h hp
    rcases h with ⟨es, hok⟩ | herr
    · simp only [parseTweetsLoop, Except.ok.injEq, Prod.mk.injEq] at hok
      obtain ⟨-, h1, h2⟩ := hok
      subst h1 h2
      exact hp
    · simp only [parseTweetsLoop] at herr
      cases herr
  | cons t ts ih =>
    intro acc p w p1 w1 h hp
    have hsplit : ∀ (out : Except (LocationParser × World)
        (List EnrichedTweet × LocationParser × World)),
        parseTweetsLoop acc (t :: ts) p w = out →
        ((∃ es, out = .ok (es, p1, w1)) ∨ out = .error (p1, w1)) → P p1 w1 := by
      intro out hout hcases
      simp only [parseTweetsLoop] at hout
      rcases hpt : parse_tweet_location p w t with ⟨pa, wa⟩ | ⟨e, pa, wa⟩
      · rw [hpt] at hout
        dsimp only at hout
        subst hout
        rcases hcases with ⟨es, hok⟩ | herr
        · cases hok
        · simp only [Except.error.injEq, Prod.mk.injEq] at herr
          obtain ⟨h1, h2⟩ := herr
          subst h1 h2
          exact parse_tweet_preserves P hstep hcache p w t pa wa (Or.inr hpt) hp
      · rw [hpt] at hout
        dsimp only at hout
        have hpa : P pa wa :=
          parse_tweet_preserves P hstep hcache p w t pa wa (Or.inl ⟨e, hpt⟩) hp
        subst hout
        rcases hcases with ⟨es, hok⟩ | herr
        · exact ih (e :: acc) pa wa p1 w1 (Or.inl ⟨es, hok⟩) hpa
        · exact ih (e :: acc) pa wa p1 w1 (Or.inr herr) hpa
    exact hsplit _ rfl h

theorem parse_tweets_preserves (P : LocationParser → World → Prop)
    (hstep : ∀ p w q, P p w → P (serviceQuery p w q).2.1 (serviceQuery p w q).2.2)
    (hcache : ∀ p w c, P p w → P { p with cache := c } w)
    (hsave : ∀ p w, P p w → P { p with saves := p.saves + 1 } w)
    (p : LocationParser) (w : World) (ts : List Tweet) (p1 : LocationParser) (w1 : World)
    (h : (∃ es, parse_tweets_location p w ts = .ok (es, p1, w1)) ∨
      parse_tweets_location p w ts = .error (p1, w1))
    (hp : P p w) : P p1 w1 := by
  rcases h with ⟨es, hok⟩ | herr
  · simp only [parse_tweets_location] at hok
    rcases hl : parseTweetsLoop [] ts p w with ⟨pa, wa⟩ | ⟨es2, pa, wa⟩
    · rw [hl] at hok
      cases hok
    · rw [hl] at hok
      dsimp only at hok
      simp only [Except.ok.injEq, Prod.mk.injEq] at hok
      obtain ⟨-, h1, h2⟩ := hok
      subst h1 h2
      exact hsave pa wa
        (parseTweetsLoop_preserves P hstep hcache ts [] p w pa wa (Or.inl ⟨es2, hl⟩) hp)
  · simp only [parse_tweets_location] at herr
    rcases hl : parseTweetsLoop [] ts p w with ⟨pa, wa⟩ | ⟨es2, pa, wa⟩
    · rw [hl] at herr
      dsimp only at herr
      simp only [Except.error.injEq, Prod.mk.injEq] at herr
      obtain ⟨h1, h2⟩ := herr
      subst h1 h2
      exact parseTweetsLoop_preserves P hstep hcache ts [] p w pa wa (Or.inr hl) hp
    · rw [hl] at herr
      cases herr

/-! ## The rate-limit invariant is preserved by every operation -/

theorem serviceQuery_rateOk (p : LocationParser) (w : World) (q : String)
    (h : RateOk p w) : RateOk (serviceQuery p w q).2.1 (serviceQuery p w q).2.2 := by
  obtain ⟨hch, hmem, hle⟩ := h
  have hge := respect_rate_limit_now_ge p w
  have e1 : (serviceQuery p w q).2.1.lastRequestTime = (respect_rate_limit p w).2.now := by
    rw [serviceQuery_snd_fst, respect_rate_limit_fst]
  have e2 : (serviceQuery p w q).2.2.now = (respect_rate_limit p w).2.now := by
    rw [serviceQuery_snd_snd]
  have e3 : (serviceQuery p w q).2.2.queryLog =
      w.queryLog ++ [(respect_rate_limit p w).2.now] := by
    rw [serviceQuery_snd_snd]
  refine ⟨?_, ?_, ?_⟩
  · rw [e3, List.chain'_append]
    refine ⟨hch, List.chain'_singleton _, ?_⟩
    intro x hx y hy
    simp only [List.head?_cons, Option.mem_def, Option.some.injEq] at hy
    subst hy
    obtain ⟨hne, hx2⟩ := List.mem_getLast?_eq_getLast hx
    have hxmem : x ∈ w.queryLog := hx2 ▸ List.getLast_mem hne
    have := hmem x hxmem
    linarith
  · rw [e3, e1]
    intro t ht
    rcases List.mem_append.mp ht with h1 | h2
    · have := hmem t h1
      linarith
    · simp only [List.mem_singleton] at h2
      subst h2
      exact le_refl _
  · rw [e1, e2]

theorem rateOk_cacheUpdate (p : LocationParser) (w : World)
    (c : List (String × GeocodeResult)) (h : RateOk p w) :
    RateOk { p with cache := c } w := h

theorem rateOk_saveUpdate (p : LocationParser) (w : World) (h : RateOk p w) :
    RateOk { p with saves := p.saves + 1 } w := h

theorem rateOk_advance (p : LocationParser) (w : World) (δ : ℚ) (hδ : 0 ≤ δ)
    (h : RateOk p w) : RateOk p { w with now := w.now + δ } := by
  obtain ⟨hch, hmem, hle⟩ := h
  exact ⟨hch, hmem, by dsimp only; linarith⟩

theorem rateOk_addKnown (p : LocationParser) (w : World) (s : String) (lat lon : ℚ)
    (address city country : Option String) (h : RateOk p w) :
    RateOk (add_known_location p s lat lon address city country) w := h

/-- Rate-limit invariant along every reachable state of a single parser
instance. -/
theorem reach_rateOk (p0 : LocationParser) (w0 : World) (p : LocationParser) (w : World)
    (h : Reach p0 w0 p w) (h0 : RateOk p0 w0) : RateOk p w := by
  induction h with
  | refl => exact h0
  | advance δ hδ h ih => exact rateOk_advance _ _ δ hδ ih
  | geocodeOk s res p1 w1 h hs ih =>
    exact geocode_preserves RateOk serviceQuery_rateOk rateOk_cacheUpdate _ _ s p1 w1
      (Or.inl ⟨res, hs⟩) ih
  | geocodeErr s p1 w1 h hs ih =>
    exact geocode_preserves RateOk serviceQuery_rateOk rateOk_cacheUpdate _ _ s p1 w1
      (Or.inr hs) ih
  | addKnown s lat lon address city country h ih =>
    exact rateOk_addKnown _ _ s lat lon address city country ih
  | parseOne t e p1 w1 h hs ih =>
    exact parse_tweet_preserves RateOk serviceQuery_rateOk rateOk_cacheUpdate _ _ t p1 w1
      (Or.inl ⟨e, hs⟩) ih
  | parseOneErr t p1 w1 h hs ih =>
    exact parse_tweet_preserves RateOk serviceQuery_rateOk rateOk_cacheUpdate _ _ t p1 w1
      (Or.inr hs) ih
  | parseMany ts es p1 w1 h hs ih =>
    exact parse_tweets_preserves RateOk serviceQuery_rateOk rateOk_cacheUpdate
      (fun p w => rateOk_saveUpdate p w) _ _ ts p1 w1 (Or.inl ⟨es, hs⟩) ih
  | parseManyErr ts p1 w1 h hs ih =>
    exact parse_tweets_preserves RateOk serviceQuery_rateOk rateOk_cacheUpdate
      (fun p w => rateOk_saveUpdate p w) _ _ ts p1 w1 (Or.inr hs) ih

/-! ## The cache-entry invariant is preserved by every operation -/

theorem cacheOk_of_cache_eq (p1 p : LocationParser) (h : p1.cache = p.cache)
    (hc : CacheOk p) : CacheOk p1 := fun k r hk => hc k r (h ▸ hk)

theorem geocode_cacheOk (p : LocationParser) (w : World) (s : String)
    (p1 : LocationParser) (w1 : World)
    (h : (∃ res, geocode_location p w s = .ok (res, p1, w1)) ∨
      geocode_location p w s = .error (p1, w1))
    (hc : CacheOk p) : CacheOk p1 := by
  rcases h with ⟨res, hok⟩ | herr
  · rcases res with _ | r
    · exact cacheOk_of_cache_eq p1 p (geocode_ok_none p w s p1 w1 hok) hc
    · rcases geocode_ok_some p w s r p1 w1 hok with ⟨-, hp1, -⟩ | ⟨-, hi, hx⟩
      · subst hp1
        exact hc
      · intro k r' hk
        rw [hx, cacheGet_cachePut] at hk
        by_cases hks : s = k
        · rw [if_pos hks] at hk
          have : r' = r := (Option.some.inj hk).symm
          subst this
          exact Or.inl (hks ▸ hi)
        · rw [if_neg hks] at hk
          exact hc k r' hk
  · exact cacheOk_of_cache_eq p1 p (geocode_err_cache p w s p1 w1 herr) hc

theorem addKnown_cacheOk (p : LocationParser) (s : String) (lat lon : ℚ)
    (address city country : Option String) (hc : CacheOk p) :
    CacheOk (add_known_location p s lat lon address city country) := by
  intro k r hk
  rw [add_known_location_cacheGet] at hk
  dsimp only at hk
  by_cases hv : k ∈ variantKeys s
  · rw [if_pos hv] at hk
    have : r = _ := (Option.some.inj hk).symm
    subst this
    exact Or.inr hv
  · rw [if_neg hv] at hk
    by_cases hb : s = k
    · rw [if_pos hb] at hk
      have : r = _ := (Option.some.inj hk).symm
      subst this
      exact Or.inl hb
    · rw [if_neg hb] at hk
      exact hc k r hk

theorem parse_tweet_cacheOk (p : LocationParser) (w : World) (t : Tweet)
    (p1 : LocationParser) (w1 : World)
    (h : (∃ e, parse_tweet_location p w t = .ok (e, p1, w1)) ∨
      parse_tweet_location p w t = .error (p1, w1))
    (hc : CacheOk p) : CacheOk p1 := by
  have hone : ∀ (out : Except (LocationParser × World)
      (EnrichedTweet × LocationParser × World)), parse_tweet_location p w t = out →
      (∀ e, out = .ok (e, p1, w1) → CacheOk p1) ∧
      (out = .error (p1, w1) → CacheOk p1) := by
    intro out hout
    simp only [parse_tweet_location] at hout
    rcases hx : extract_location_from_tweet t with _ | s
    all_goals rw [hx] at hout
    all_goals dsimp only at hout
    case none =>
      subst hout
      refine ⟨?_, ?_⟩
      · intro e he
        simp only [Except.ok.injEq, Prod.mk.injEq] at he
        obtain ⟨-, h1, h2⟩ := he
        subst h1 h2
        exact hc
      · intro he
        cases he
    case some =>
      by_cases hs : s = ""
      · rw [if_pos hs] at hout
        subst hout
        refine ⟨?_, ?_⟩
        · intro e he
          simp only [Except.ok.injEq, Prod.mk.injEq] at he
          obtain ⟨-, h1, h2⟩ := he
          subst h1 h2
          exact hc
        · intro he
          cases he
      · rw [if_neg hs] at hout
        rcases hg : geocode_location p w s with ⟨pa, wa⟩ | ⟨g, pa, wa⟩
        · rw [hg] at hout
          subst hout
          refine ⟨?_, ?_⟩
          · intro e he
            cases he
          · intro he
            simp only [Except.error.injEq, Prod.mk.injEq] at he
            obtain ⟨h1, h2⟩ := he
            subst h1 h2
            exact geocode_cacheOk p w s pa wa (Or.inr hg) hc
        · rw [hg] at hout
          subst hout
          refine ⟨?_, ?_⟩
          · intro e he
            simp only [Except.ok.injEq, Prod.mk.injEq] at he
            obtain ⟨-, h1, h2⟩ := he
            subst h1 h2
            exact geocode_cacheOk p w s pa wa (Or.inl ⟨g, hg⟩) hc
          · intro he
            cases he
  rcases h with ⟨e, hok⟩ | herr
  · exact (hone _ rfl).1 e hok
  · exact (hone _ rfl).2 herr

theorem parseTweetsLoop_cacheOk (ts : List Tweet) :
    ∀ acc p w p1 w1,
      ((∃ es, parseTweetsLoop acc ts p w = .ok (es, p1, w1)) ∨
        parseTweetsLoop acc ts p w = .error (p1, w1)) →
      CacheOk p → CacheOk p1 := by
  induction ts with
  | nil =>
    intro acc p w p1 w1 h hc
    rcases h with ⟨es, hok⟩ | herr
    · simp only [parseTweetsLoop, Except.ok.injEq, Prod.mk.injEq] at hok
      obtain ⟨-, h1, h2⟩ := hok
      subst h1 h2
      exact hc
    · simp only [parseTweetsLoop] at herr
      cases herr
  | cons t ts ih =>
    intro acc p w p1 w1 h hc
    have hsplit : ∀ (out : Except (LocationParser × World)
        (List EnrichedTweet × LocationParser × World)),
        parseTweetsLoop acc (t :: ts) p w = out →
        ((∃ es, out = .ok (es, p1, w1)) ∨ out = .error (p1, w1)) → CacheOk p1 := by
      intro out hout hcases
      simp only [parseTweetsLoop] at hout
      rcases hpt : parse_tweet_location p w t with ⟨pa, wa⟩ | ⟨e, pa, wa⟩
      · rw [hpt] at hout
        dsimp only at hout
        subst hout
        rcases hcases with ⟨es, hok⟩ | herr
        · cases hok
        · simp only [Except.error.injEq, Prod.mk.injEq] at herr
          obtain ⟨h1, h2⟩ := herr
          subst h1 h2
          exact parse_tweet_cacheOk p w t pa wa (Or.inr hpt) hc
      · rw [hpt] at hout
        dsimp only at hout
        have hpa : CacheOk pa := parse_tweet_cacheOk p w t pa wa (Or.inl ⟨e, hpt⟩) hc
        subst hout
        rcases hcases with ⟨es, hok⟩ | herr
        · exact ih (e :: acc) pa wa p1 w1 (Or.inl ⟨es, hok⟩) hpa
        · exact ih (e :: acc) pa wa p1 w1 (Or.inr herr) hpa
    exact hsplit _ rfl h

theorem parse_tweets_cacheOk (p : LocationParser) (w : World) (ts : List Tweet)
    (p1 : LocationParser) (w1 : World)
    (h : (∃ es, parse_tweets_location p w ts = .ok (es, p1, w1)) ∨
      parse_tweets_location p w ts = .error (p1, w1))
    (hc : CacheOk p) : CacheOk p1 := by
  rcases h with ⟨es, hok⟩ | herr
  · simp only [parse_tweets_location] at hok
    rcases hl : parseTweetsLoop [] ts p w with ⟨pa, wa⟩ | ⟨es2, pa, wa⟩
    · rw [hl] at hok
      cases hok
    · rw [hl] at hok
      dsimp only at hok
      simp only [Except.ok.injEq, Prod.mk.injEq] at hok
      obtain ⟨-, h1, h2⟩ := hok
      subst h1 h2
      have := parseTweetsLoop_cacheOk ts [] p w pa wa (Or.inl ⟨es2, hl⟩) hc
      exact fun k r hk => this k r hk
  · simp only [parse_tweets_location] at herr
    rcases hl : parseTweetsLoop [] ts p w with ⟨pa, wa⟩ | ⟨es2, pa, wa⟩
    · rw [hl] at herr
      dsimp only at herr
      simp only [Except.error.injEq, Prod.mk.injEq] at herr
      obtain ⟨h1, h2⟩ := herr
      subst h1 h2
      exact parseTweetsLoop_cacheOk ts [] p w pa wa (Or.inr hl) hc
    · rw [hl] at herr
      cases herr

/-- Cache-entry invariant along every reachable state. -/
theorem reach_cacheOk (p0 : LocationParser) (w0 : World) (p : LocationParser) (w : World)
    (h : Reach p0 w0 p w) (h0 : CacheOk p0) : CacheOk p := by
  induction h with
  | refl => exact h0
  | advance δ hδ h ih => exact ih
  | geocodeOk s res p1 w1 h hs ih => exact geocode_cacheOk _ _ s p1 w1 (Or.inl ⟨res, hs⟩) ih
  | geocodeErr s p1 w1 h hs ih => exact geocode_cacheOk _ _ s p1 w1 (Or.inr hs) ih
  | addKnown s lat lon address city country h ih =>
    exact addKnown_cacheOk _ s lat lon address city country ih
  | parseOne t e p1 w1 h hs ih => exact parse_tweet_cacheOk _ _ t p1 w1 (Or.inl ⟨e, hs⟩) ih
  | parseOneErr t p1 w1 h hs ih => exact parse_tweet_cacheOk _ _ t p1 w1 (Or.inr hs) ih
  | parseMany ts es p1 w1 h hs ih => exact parse_tweets_cacheOk _ _ ts p1 w1 (Or.inl ⟨es, hs⟩) ih
  | parseManyErr ts p1 w1 h hs ih => exact parse_tweets_cacheOk _ _ ts p1 w1 (Or.inr hs) ih

/-! ## Flush cadence: saves track the request counter -/

theorem serviceQuery_savesOk (p : LocationParser) (w : World) (q : String)
    (h : p.saves = p.requestCount / 10) :
    (serviceQuery p w q).2.1.saves = (serviceQuery p w q).2.1.requestCount / 10 := by
  rw [serviceQuery_snd_fst, respect_rate_limit_fst]
  dsimp only
  split <;> rename_i hmod <;> omega

theorem parseTweetsLoop_savesOk (ts : List Tweet) (acc : List EnrichedTweet)
    (p : LocationParser) (w : World) (es : List EnrichedTweet)
    (p1 : LocationParser) (w1 : World)
    (h : parseTweetsLoop acc ts p w = .ok (es, p1, w1))
    (hp : p.saves = p.requestCount / 10) :
    p1.saves = p1.requestCount / 10 :=
  parseTweetsLoop_preserves (fun p _ => p.saves = p.requestCount / 10)
    (fun p w q hp => serviceQuery_savesOk p w q hp)
    (fun _ _ _ hp => hp) ts acc p w p1 w1 (Or.inl ⟨es, h⟩) hp

/-! ## All attempts failing: the cascade runs and the Gateway returns none -/

theorem fallbackLoop_all_fail (locStr : String) (toks : List String) :
    ∀ p w, (∀ n q, failedReply (w.oracle n q)) →
      ∃ p1 w1, fallbackLoop locStr toks p w = (none, p1, w1) ∧
        w1.calls = w.calls +
          (toks.filter (fun t => MAJOR_LOCATIONS.contains (strLower t))).length ∧
        w1.oracle = w.oracle := by
  induction toks with
  | nil =>
    intro p w hall
    exact ⟨p, w, rfl, by simp, rfl⟩
  | cons word rest ih =>
    intro p w hall
    by_cases hg : MAJOR_LOCATIONS.contains (strLower word) = true
    · rcases hsq : serviceQuery p w word with ⟨reply, pa, wa⟩
      have hwa_or : wa.oracle = w.oracle := by
        have := serviceQuery_oracle p w word
        rw [hsq] at this
        exact this
      have hwa_calls : wa.calls = w.calls + 1 := by
        have h2 : (serviceQuery p w word).2.2.calls = w.calls + 1 := by
          rw [serviceQuery_snd_snd]
        rw [hsq] at h2
        exact h2
      have hreply : failedReply reply := by
        have h2 : (serviceQuery p w word).1 = w.oracle w.calls word := by
          show (respect_rate_limit p w).2.oracle (respect_rate_limit p w).2.calls word = _
          rw [respect_rate_limit_snd]
        rw [hsq] at h2
        dsimp only at h2
        rw [h2]
        exact hall w.calls word
      obtain ⟨p1, w1, hfb, hc, ho⟩ := ih pa wa (fun n q => by rw [hwa_or]; exact hall n q)
      refine ⟨p1, w1, ?_, ?_, ?_⟩
      · rcases hreply with h | h | h | h <;>
          (subst h
           simp only [fallbackLoop, if_pos hg, hsq]
           exact hfb)
      · rw [hc, hwa_calls]
        simp only [List.filter_cons, hg, if_true, List.length_cons]
        omega
      · rw [ho, hwa_or]
    · have hg' : MAJOR_LOCATIONS.contains (strLower word) = false := by
        simpa using hg
      obtain ⟨p1, w1, hfb, hc, ho⟩ := ih p w hall
      refine ⟨p1, w1, ?_, ?_, ho⟩
      · simp only [fallbackLoop, if_neg hg]
        exact hfb
      · rw [hc]
        simp only [List.filter_cons]
        rw [if_neg hg]

/-- C7: transient service errors are contained.  On a cache miss with a
non-empty input, if the external service only ever produces transient
errors or no-match replies (never a result, never an uncaught exception
kind), `geocode_location` returns `.ok none` — it does not raise — and it
still runs the whole cascade: one primary query plus, when the input has
several whitespace tokens, one query per gazetteer-matching token. -/
theorem C7_transient_errors_contained (p : LocationParser) (w : World) (s : String)
    (hmiss : cacheGet p.cache s = none) (hne2 : s ≠ "")
    (hall : ∀ n q, failedReply (w.oracle n q)) :
    ∃ p1 w1, geocode_location p w s = .ok (none, p1, w1) ∧
      w1.calls = w.calls + 1 +
        (if 1 < (pySplit s).length then (gazTokens s).length else 0) ∧
      w1.oracle = w.oracle := by
  rcases hsq : serviceQuery p w (primarySearchTerm s) with ⟨reply, pa, wa⟩
  have hwa_or : wa.oracle = w.oracle := by
    have := serviceQuery_oracle p w (primarySearchTerm s)
    rw [hsq] at this
    exact this
  have hwa_calls : wa.calls = w.calls + 1 := by
    have h2 : (serviceQuery p w (primarySearchTerm s)).2.2.calls = w.calls + 1 := by
      rw [serviceQuery_snd_snd]
    rw [hsq] at h2
    exact h2
  have hreply : failedReply reply := by
    have h2 : (serviceQuery p w (primarySearchTerm s)).1 =
        w.oracle w.calls (primarySearchTerm s) := by
      show (respect_rate_limit p w).2.oracle (respect_rate_limit p w).2.calls _ = _
      rw [respect_rate_limit_snd]
    rw [hsq] at h2
    dsimp only at h2
    rw [h2]
    exact hall w.calls _
  have hgeo : geocode_location p w s =
      (if 1 < (pySplit s).length then Except.ok (fallbackLoop s (pySplit s) pa wa)
       else Except.ok (none, pa, wa)) := by
    rcases hreply with h | h | h | h <;>
      (subst h
       simp only [geocode_location]
       rw [hmiss]
       dsimp only
       rw [if_neg hne2, hsq])
  by_cases hlen : 1 < (pySplit s).length
  · obtain ⟨p1, w1, hfb, hc, ho⟩ := fallbackLoop_all_fail s (pySplit s) pa wa
      (fun n q => by rw [hwa_or]; exact hall n q)
    refine ⟨p1, w1, ?_, ?_, ?_⟩
    · rw [hgeo, if_pos hlen, hfb]
    · rw [if_pos hlen]
      rw [hc, hwa_calls]
      rfl
    · rw [ho, hwa_or]
  · refine ⟨pa, wa, ?_, ?_, hwa_or⟩
    · rw [hgeo, if_neg hlen]
    · rw [if_neg hlen, hwa_calls]

/-! ## Closed forms for single external attempts (concrete evaluation) -/

theorem serviceQuery_eval (p : LocationParser) (w : World) (q : String) :
    serviceQuery p w q = (w.oracle w.calls q,
      ⟨p.cache, p.requestCount + 1, (respect_rate_limit p w).2.now,
        if (p.requestCount + 1) % 10 = 0 then p.saves + 1 else p.saves⟩,
      ⟨(respect_rate_limit p w).2.now, w.oracle, w.calls + 1,
        w.queryLog ++ [(respect_rate_limit p w).2.now]⟩) := by
  have h0 : serviceQuery p w q = ((serviceQuery p w q).1,
      (serviceQuery p w q).2.1, (serviceQuery p w q).2.2) := rfl
  have h1 := serviceQuery_snd_fst p w q
  rw [respect_rate_limit_fst] at h1
  have h2 := serviceQuery_snd_snd p w q
  have h3 : (serviceQuery p w q).1 = w.oracle w.calls q := by
    show (respect_rate_limit p w).2.oracle (respect_rate_limit p w).2.calls q = _
    rw [respect_rate_limit_snd]
  rw [h0, h1, h2, h3]

theorem geocode_notFound_eval (p : LocationParser) (w : World) (s : String)
    (hmiss : cacheGet p.cache s = none) (hne : s ≠ "")
    (hsingle : (pySplit s).length ≤ 1)
    (hreply : w.oracle w.calls (primarySearchTerm s) = .notFound) :
    geocode_location p w s = .ok (none,
      ⟨p.cache, p.requestCount + 1, (respect_rate_limit p w).2.now,
        if (p.requestCount + 1) % 10 = 0 then p.saves + 1 else p.saves⟩,
      ⟨(respect_rate_limit p w).2.now, w.oracle, w.calls + 1,
        w.queryLog ++ [(respect_rate_limit p w).2.now]⟩) := by
  have hsq := serviceQuery_eval p w (primarySearchTerm s)
  rw [hreply] at hsq
  simp only [geocode_location]
  rw [hmiss]
  dsimp only
  rw [if_neg hne, hsq]
  dsimp only
  rw [if_neg (Nat.not_lt.mpr hsingle)]

theorem geocode_found_eval (p : LocationParser) (w : World) (s : String)
    (addr : String) (lat lon : ℚ) (rw0 : String)
    (hmiss : cacheGet p.cache s = none) (hne : s ≠ "")
    (hreply : w.oracle w.calls (primarySearchTerm s) = .found addr lat lon rw0) :
    geocode_location p w s = .ok
      (some ⟨s, addr, lat, lon, RawMap.service rw0⟩,
      ⟨cachePut p.cache s ⟨s, addr, lat, lon, RawMap.service rw0⟩,
        p.requestCount + 1, (respect_rate_limit p w).2.now,
        if (p.requestCount + 1) % 10 = 0 then p.saves + 1 else p.saves⟩,
      ⟨(respect_rate_limit p w).2.now, w.oracle, w.calls + 1,
        w.queryLog ++ [(respect_rate_limit p w).2.now]⟩) := by
  have hsq := serviceQuery_eval p w (primarySearchTerm s)
  rw [hreply] at hsq
  simp only [geocode_location]
  rw [hmiss]
  dsimp only
  rw [if_neg hne, hsq]

/-! ## Claim theorems: invariants, rate limit, flush cadence -/

/-- C4 (amended): for every cache entry produced by the operations of this
core from a cache already satisfying the shape, the stored result's
`input` field equals the cache key for gateway-success entries and for the
base entry of a manual insert; the five preposition-prefixed variant
entries written by a manual insert instead store the base string (the
variant key is `"<preposition> " ++ input`).  Address, latitude and
longitude are always populated (every write site builds the full record,
embedded here as the `GeocodeResult` structure). -/
theorem C4_cache_entry_shape (p0 p : LocationParser) (w0 w : World)
    (h : Reach p0 w0 p w) (h0 : CacheOk p0) : CacheOk p :=
  reach_cacheOk p0 w0 p w h h0

/-- C5 (amended): per-instance rate limiting.  Along every run of a single
`LocationParser` instance (with the wall clock free to advance between
operations), consecutive outbound queries to the external service are
separated by at least one second; a call that would violate the interval
sleeps until it is satisfied.  The limiter state is per instance
(`self.last_request_time`), not process-wide. -/
theorem C5_rate_limit_per_instance (p0 p : LocationParser) (w0 w : World)
    (h : Reach p0 w0 p w) (h0 : RateOk p0 w0) :
    List.Chain' (fun a b => a + 1 ≤ b) w.queryLog :=
  (reach_rateOk p0 w0 p w h h0).1

/-- C6 (amended): flush cadence.  The cache flush is invoked automatically
once per 10 external query attempts — the counter counts every
rate-limited outbound attempt, successful or not — and the batch
orchestrator adds exactly one terminal flush, so a batch started on a
fresh parser ends with `requestCount / 10 + 1` flush invocations, where
`requestCount` is the number of external attempts made. -/
theorem C6_flush_cadence (p : LocationParser) (w : World) (ts : List Tweet)
    (es : List EnrichedTweet) (p1 : LocationParser) (w1 : World)
    (hcount : p.requestCount = 0) (hsaves : p.saves = 0)
    (h : parse_tweets_location p w ts = .ok (es, p1, w1)) :
    p1.saves = p1.requestCount / 10 + 1 := by
  have hinv : p.saves = p.requestCount / 10 := by
    rw [hcount, hsaves]
  simp only [parse_tweets_location] at h
  rcases hl : parseTweetsLoop [] ts p w with ⟨pa, wa⟩ | ⟨es2, pa, wa⟩
  · rw [hl] at h
    cases h
  · rw [hl] at h
    dsimp only at h
    simp only [Except.ok.injEq, Prod.mk.injEq] at h
    obtain ⟨-, h1, h2⟩ := h
    subst h1 h2
    have hloop := parseTweetsLoop_savesOk ts [] p w es2 pa wa hl hinv
    dsimp only
    omega

/-! ## Concrete evaluations of single gateway calls -/

theorem rrl_now_parser0_world100 : (respect_rate_limit parser0 world100).2.now = 100 := by
  rw [respect_rate_limit_snd]
  dsimp only [parser0, world100]
  norm_num

theorem rrl_now_p1c_w1c : (respect_rate_limit p1c w1c).2.now = 101 := by
  rw [respect_rate_limit_snd]
  dsimp only [p1c, w1c]
  norm_num

theorem rrl_now_parser0_w1c : (respect_rate_limit parser0 w1c).2.now = 100 := by
  rw [respect_rate_limit_snd]
  dsimp only [parser0, w1c]
  norm_num

theorem rrl_now_p9_world100 : (respect_rate_limit p9 world100).2.now = 100 := by
  rw [respect_rate_limit_snd]
  dsimp only [p9, world100]
  norm_num

theorem rrl_now_parser0_worldF : (respect_rate_limit parser0 worldF).2.now = 100 := by
  rw [respect_rate_limit_snd]
  dsimp only [parser0, worldF]
  norm_num

theorem geocode_qq_notFound :
    geocode_location parser0 world100 "qq" = .ok (none, p1c, w1c) := by
  have h := geocode_notFound_eval parser0 world100 "qq" rfl (by decide) (by decide) rfl
  rw [rrl_now_parser0_world100] at h
  simpa [p1c, w1c, parser0, world100] using h

theorem geocode_zz_second :
    geocode_location p1c w1c "zz" = .ok (none, p2c, w2c) := by
  have h := geocode_notFound_eval p1c w1c "zz" rfl (by decide) (by decide) rfl
  rw [rrl_now_p1c_w1c] at h
  simpa [p1c, p2c, w1c, w2c] using h

theorem geocode_zz_fresh :
    geocode_location parser0 w1c "zz" = .ok (none, p1c, w2x) := by
  have h := geocode_notFound_eval parser0 w1c "zz" rfl (by decide) (by decide) rfl
  rw [rrl_now_parser0_w1c] at h
  simpa [p1c, parser0, w1c, w2x] using h

theorem geocode_qq_found :
    geocode_location parser0 worldF "qq" = .ok (some rQQ, pQQ, wF1) := by
  have h := geocode_found_eval parser0 worldF "qq" "Addr" 1 2 "rawdata" rfl (by decide) rfl
  rw [rrl_now_parser0_worldF] at h
  simpa [parser0, worldF, rQQ, pQQ, wF1, cachePut] using h

theorem geocode_ny_found :
    geocode_location parser0 worldF "New York baby" = .ok (some rNY, pNY, wF1) := by
  have h := geocode_found_eval parser0 worldF "New York baby" "Addr" 1 2 "rawdata" rfl
    (by decide) rfl
  rw [rrl_now_parser0_worldF] at h
  simpa [parser0, worldF, rNY, pNY, wF1, cachePut] using h

theorem geocode_qq_tenth :
    geocode_location p9 world100 "qq" = .ok (none, p10c, w1c) := by
  have h := geocode_notFound_eval p9 world100 "qq" rfl (by decide) (by decide) rfl
  rw [rrl_now_p9_world100] at h
  simpa [p9, p10c, w1c, world100] using h

theorem extract_tweetQQ : extract_location_from_tweet tweetQQ = some "qq" := rfl

theorem parse_batch_p9 :
    parse_tweets_location p9 world100 [tweetQQ] = .ok ([eQQ], pT9, w1c) := by
  simp only [parse_tweets_location, parseTweetsLoop, parse_tweet_location, extract_tweetQQ]
  rw [if_neg (by decide : ¬ ("qq" : String) = ""), geocode_qq_tenth]
  dsimp only [p10c]
  rfl

theorem parse_batch_fresh :
    parse_tweets_location parser0 world100 [tweetQQ] = .ok ([eQQ], pT1, w1c) := by
  simp only [parse_tweets_location, parseTweetsLoop, parse_tweet_location, extract_tweetQQ]
  rw [if_neg (by decide : ¬ ("qq" : String) = ""), geocode_qq_notFound]
  dsimp only [p1c]
  rfl

/-! ## Witnesses and counterexamples -/

theorem C1_extractor_priority_witness :
    extract_location_from_tweet tweetGeoLondon = some (formatCoords [1, 2]) ∧
    formatCoords [1, 2] = "1,2" ∧
    extract_location_from_text "I love London" = some "London" :=
  ⟨(C1_extractor_priority tweetGeoLondon).1 [1, 2] rfl, by decide, by decide⟩

theorem C8_ignore_list_witness :
    extract_location_from_user_profile tweetTwitter.user = none ∧
    extract_location_from_tweet tweetTwitter = some "Tokyo" := by
  have h := C8_ignore_list_fallthrough tweetTwitter userTwitter "Twitter" rfl rfl
    (by decide) (by decide) rfl rfl
  constructor
  · rw [h.1]
    decide
  · rw [h.2]
    decide

theorem C2_gateway_idempotent_witness :
    geocode_location pQQ wF1 "qq" = .ok (some rQQ, pQQ, wF1) :=
  C2_gateway_idempotent parser0 worldF "qq" rQQ pQQ wF1 geocode_qq_found

theorem C3_cache_key_fidelity_witness :
    rNY.input = "New York baby" ∧
    pNY.cache = cachePut parser0.cache "New York baby" rNY ∧
    cacheGet pNY.cache "New York baby" = some rNY :=
  C3_cache_key_fidelity parser0 worldF "New York baby" rNY pNY wF1 rfl geocode_ny_found

theorem C7_transient_errors_witness :
    (geocode_location parser0 worldT "London fog").toOption.map
      (fun y => (y.1, y.2.2.calls)) = some (none, 2) := by
  obtain ⟨p1, w1, h1, h2, h3⟩ := C7_transient_errors_contained parser0 worldT "London fog"
    rfl (by decide) (fun n q => Or.inr (Or.inl rfl))
  rw [h1]
  have hc : w1.calls = 2 := by
    rw [h2]
    decide
  simp [Except.toOption, hc]

theorem C10_failure_witness : p1c.cache = parser0.cache :=
  C10_failure_writes_nothing parser0 world100 "qq" p1c w1c geocode_qq_notFound

theorem C9_manual_roundtrip_witness :
    (geocode_location pLondon world100 "London").toOption.map
      (fun y => (y.1.map GeocodeResult.latitude, y.1.map GeocodeResult.longitude)) =
      some (some (515074/10000), some (-1278/10000)) := by
  obtain ⟨r, h1, hlat, hlon, hinp⟩ := C9_manual_roundtrip parser0 world100 "London"
    (515074/10000) (-1278/10000) none (some "London") (some "United Kingdom")
  simp only [pLondon]
  rw [h1]
  simp [Except.toOption, hlat, hlon]

theorem C4_cache_entry_witness : CacheOk pLondon :=
  C4_cache_entry_shape parser0 pLondon world100 world100
    (Reach.addKnown "London" (515074/10000) (-1278/10000) none (some "London")
      (some "United Kingdom") (Reach.refl parser0 world100))
    (by intro k r hk; simp [cacheGet, parser0] at hk)

theorem C4_cache_entry_counterexample :
    (cacheGet pLondon.cache "in London").map GeocodeResult.input = some "London" ∧
    ("London" : String) ≠ "in London" := by
  constructor
  · have h := add_known_location_cacheGet parser0 "London" (515074/10000) (-1278/10000)
      none (some "London") (some "United Kingdom") "in London"
    simp only [pLondon]
    rw [h]
    rw [if_pos (by decide : ("in London" : String) ∈ variantKeys "London")]
    rfl
  · decide

theorem C5_rate_limit_witness :
    List.Chain' (fun a b : ℚ => a + 1 ≤ b) w2c.queryLog :=
  C5_rate_limit_per_instance parser0 p2c world100 w2c
    (Reach.geocodeOk "zz" none p2c w2c
      (Reach.geocodeOk "qq" none p1c w1c (Reach.refl parser0 world100) geocode_qq_notFound)
      geocode_zz_second)
    ⟨List.chain'_nil, by simp [world100], by norm_num [parser0, world100]⟩

theorem C5_rate_limit_counterexample :
    (((geocode_location parser0 world100 "qq").toOption.bind fun a =>
      (geocode_location parser0 a.2.2 "zz").toOption.map fun b => b.2.2.queryLog)
      = some [100, 100]) ∧
    ¬ List.Chain' (fun a b : ℚ => a + 1 ≤ b) [100, 100] := by
  constructor
  · rw [geocode_qq_notFound]
    show ((geocode_location parser0 w1c "zz").toOption.map fun b => b.2.2.queryLog) = _
    rw [geocode_zz_fresh]
    rfl
  · intro hch
    obtain ⟨hab, -⟩ := List.chain'_cons.mp hch
    norm_num at hab

theorem C6_flush_cadence_witness : pT1.saves = pT1.requestCount / 10 + 1 :=
  C6_flush_cadence parser0 world100 [tweetQQ] [eQQ] pT1 w1c rfl rfl parse_batch_fresh

theorem C6_flush_cadence_counterexample :
    (parse_tweets_location p9 world100 [tweetQQ]).toOption.map
      (fun y => (y.2.1.saves, y.1.map EnrichedTweet.geocoded)) = some (2, [none]) ∧
    (2 : Nat) ≠ 1 + 0 / 10 := by
  constructor
  · rw [parse_batch_p9]
    rfl
  · decide

/-! ## Sanity checks of the text-mining layer -/

example : find_locations_in_text "visiting Tokyo" = ["Tokyo"] := by decide

example : find_locations_in_text "Amazing match today in London! The team played brilliantly!" = ["London"] := by decide

example : extract_location_from_text "I am from Chicago friends" = some "Chicago friends" := by decide

example : find_locations_in_text "" = [] := by decide

example : extract_location_from_user_profile (some ⟨some "Twitter", some "based in Berlin"⟩) = some "Berlin" := by decide

example : extract_location_from_user_profile (some ⟨some " Manchester, UK ", none⟩) = some "Manchester, UK" := by decide

example : find_locations_in_text "in McDonald" = ["McDonald"] := by decide

example : find_locations_in_text "in LondonTown" = ["LondonTown", "London"] := by decide

example : extract_location_from_text "based in LaGuardia x" = some "LaGuardia" := by decide

example : findPrepMatches ("in ".data) ("in AbCDe".data).length ("in AbCDe".data) = ["AbC".data] := by decide

example : findPrepMatches ("in ".data) ("in Mc Donald x".data).length ("in Mc Donald x".data) = ["Mc Donald".data] := by decide

example : findPrepMatches ("in ".data) ("in McDonaldVille".data).length ("in McDonaldVille".data) = ["McDonald".data] := by decide

example : findPrepMatches ("in ".data) ("in Ab  Cd".data).length ("in Ab  Cd".data) = ["Ab ".data] := by decide

example : findPrepMatches ("in ".data) ("in Ab cd ef".data).length ("in Ab cd ef".data) = ["Ab cd".data] := by decide

example : findPrepMatches ("in ".data) ("in A".data).length ("in A".data) = [] := by decide
